import Mathlib

/-!
Verification of the CodePrompt prompt-construction core.

The development shallowly embeds the prompt-construction pipeline:

* `PB` models the Node-side library (`utils/promptBuilder.js`):
  `PROMPT_TEMPLATES`, `OUTPUT_FORMATS`, `COMPLEXITY_LEVELS` and `buildPrompt`.
* `WB` models the browser-side builder (`web/app.js`): the web template
  registry, the per-key fallback table, and its `buildPrompt` (which in
  addition to the Node version merges fallbacks and runs a final
  placeholder-cleanup pass).
* `PO` models the optimizer module (`utils/promptOptimizer.js`):
  `optimizePrompt`, `analyzeTokenEfficiency`, `generatePromptVariations`,
  `getFrameworkHints`, `getTypeHints`.

Modelling conventions:

* JavaScript strings are embedded as `List Char` (`Str`); string literals
  are written via `str`.  Brace and quote characters are built with
  `Char.ofNat` so that template text is written exactly once.
* A JavaScript options object is an association list `List (Str × Str)`
  in insertion order; an absent property and `undefined` are both
  represented by a failed lookup, which `lookupD` maps to the empty
  string (both are falsy in every use site of the source).  Option values
  are modelled as strings; the only boolean-valued options in the source
  (`includeDiagrams`, `includeExamples`, `includeToc`) are compared
  against `'true'`/truthiness only, which the string model preserves for
  the web/CLI string inputs, and the CLI-only array branch for
  `diagramTypes` is outside the model.
* `s.replace(pat, rep)` with a string pattern replaces the first
  occurrence (`replaceFirst`); `s.replace(/.../g, rep)` replaces all
  (`replaceAll`); the web cleanup regex `\x7b\x7b\w+\x7d\x7d` is
  `cleanup`.
* `Math.ceil(n / 4)` on a natural `n` is `(n + 3) / 4`; the equivalence
  with the rational ceiling is proved in `ceil_quarter`.
-/

set_option linter.unusedVariables false
set_option maxRecDepth 100000

/-- JavaScript strings are modelled as lists of characters. -/
abbrev Str := List Char

/-- Embed a Lean string literal as a `Str`. -/
def str (s : String) : Str := s.data

/-- The left-brace character. -/
def lb : Char := Char.ofNat 123

/-- The right-brace character. -/
def rb : Char := Char.ofNat 125

/-- The single-quote character. -/
def qch : Char := Char.ofNat 39

/-- The backtick character. -/
def bq : Char := Char.ofNat 96

/-- The dollar character. -/
def dollar : Char := Char.ofNat 36

/-- The placeholder token for a key, i.e. the two-brace-delimited key. -/
def phKey (k : Str) : Str := lb :: lb :: (k ++ [rb, rb])

/-- `GetSubstitution` for a `replace` with a string pattern and a string
replacement: in the replacement text `$$` yields a dollar, `$&` the
matched pattern, a dollar followed by the backtick character the part of
the subject before the match (`a`), a dollar followed by the quote
character the part after it (`b`); any other dollar is literal (the
capture list is empty for a string pattern, so `$1`-style references are
literal text, as is `$<`). -/
def getSubstitution (pat a b : Str) : Str → Str
  | [] => []
  | c :: cs =>
    if c = dollar then
      match cs with
      | [] => [dollar]
      | d :: ds =>
        if d = dollar then dollar :: getSubstitution pat a b ds
        else if d = '&' then pat ++ getSubstitution pat a b ds
        else if d = bq then a ++ getSubstitution pat a b ds
        else if d = qch then b ++ getSubstitution pat a b ds
        else dollar :: d :: getSubstitution pat a b ds
    else c :: getSubstitution pat a b cs

/-- First-occurrence splitting: `splitOnce pat s = some (a, b)` when
`s = a ++ pat ++ b` at the leftmost occurrence of `pat`, `none` when `pat`
does not occur in `s`. -/
def splitOnce (pat : Str) : Str → Option (Str × Str)
  | [] => if pat.isPrefixOf ([] : Str) then some ([], ([] : Str).drop pat.length) else none
  | c :: cs =>
    if pat.isPrefixOf (c :: cs) then some ([], (c :: cs).drop pat.length)
    else (splitOnce pat cs).map fun p => (c :: p.1, p.2)

/-- JavaScript `s.replace(pat, rep)` with a string pattern and a string
replacement: replace the first occurrence of `pat` only, expanding the
dollar escapes of the replacement text. -/
def replaceFirst (s pat rep : Str) : Str :=
  match splitOnce pat s with
  | none => s
  | some (a, b) => a ++ (getSubstitution pat a b rep ++ b)

/-- JavaScript `s.includes(pat)`. -/
def containsS (s pat : Str) : Bool := (splitOnce pat s).isSome

/-- Fuelled global replacement; the fuel bounds the number of matches and
`pre` is the already-scanned prefix of the original subject (the
dollar-backtick escape renders everything before the current match, so
the scan has to carry it). -/
def replaceAllF : Nat → Str → Str → Str → Str → Str
  | 0, _, _, _, s => s
  | n + 1, pat, rep, pre, s =>
    match splitOnce pat s with
    | none => s
    | some (a, b) =>
      a ++ (getSubstitution pat (pre ++ a) b rep ++
        replaceAllF n pat rep ((pre ++ a) ++ pat) b)

/-- JavaScript `s.replace(new RegExp(pat, 'g'), rep)` for a literal
pattern and a string replacement: replace every occurrence, scanning left
to right and not rescanning the replacement. -/
def replaceAll (s pat rep : Str) : Str := replaceAllF (s.length + 1) pat rep [] s

/-- JavaScript property read on an object literal modelled as an
association list: the value at the first matching key. -/
def lookupA : List (Str × Str) → Str → Option Str
  | [], _ => none
  | (k, v) :: tl, key => if k = key then some v else lookupA tl key

/-- Property read defaulting to the empty string (absent and `undefined`
are falsy, as is `''`, in every use site of the source). -/
def lookupD (l : List (Str × Str)) (key : Str) : Str := (lookupA l key).getD []

/-- JavaScript property assignment on an existing key: replace the value
in place, preserving key order. -/
def updateA : List (Str × Str) → Str → Str → List (Str × Str)
  | [], _, _ => []
  | (k, v) :: tl, key, nv => if k = key then (k, nv) :: tl else (k, v) :: updateA tl key nv

/-- JavaScript `array.join(sep)`. -/
def joinSep (sep : Str) : List Str → Str
  | [] => []
  | [x] => x
  | x :: y :: tl => x ++ (sep ++ joinSep sep (y :: tl))

/-- JavaScript `s.toLowerCase()` (ASCII case mapping). -/
def toLowerS (s : Str) : Str := s.map Char.toLower

/-- JavaScript `s.trim() !== ''`: some character is not whitespace. -/
def hasNonWs (v : Str) : Bool := v.any fun c => !c.isWhitespace

section StrLemmas

theorem getSub_cons (pat a b : Str) (c : Char) (cs : Str) :
    getSubstitution pat a b (c :: cs) =
      if c = dollar then
        match cs with
        | [] => [dollar]
        | d :: ds =>
          if d = dollar then dollar :: getSubstitution pat a b ds
          else if d = '&' then pat ++ getSubstitution pat a b ds
          else if d = bq then a ++ getSubstitution pat a b ds
          else if d = qch then b ++ getSubstitution pat a b ds
          else dollar :: d :: getSubstitution pat a b ds
      else c :: getSubstitution pat a b cs := by
  rw [getSubstitution.eq_def]
  rfl

theorem getSub_nondollar {pat a b : Str} {c : Char} (hc : ¬ c = dollar) (cs : Str) :
    getSubstitution pat a b (c :: cs) = c :: getSubstitution pat a b cs := by
  rw [getSub_cons, if_neg hc]

theorem getSub_dollar_nil {pat a b : Str} :
    getSubstitution pat a b [dollar] = [dollar] := by
  rw [getSub_cons, if_pos rfl]

theorem getSub_dollar_cons {pat a b : Str} (d : Char) (ds : Str) :
    getSubstitution pat a b (dollar :: d :: ds) =
      if d = dollar then dollar :: getSubstitution pat a b ds
      else if d = '&' then pat ++ getSubstitution pat a b ds
      else if d = bq then a ++ getSubstitution pat a b ds
      else if d = qch then b ++ getSubstitution pat a b ds
      else dollar :: d :: getSubstitution pat a b ds := by
  rw [getSub_cons, if_pos rfl]

theorem getSubstitution_id {pat a b : Str} : ∀ {rep : Str}, dollar ∉ rep →
    getSubstitution pat a b rep = rep := by
  intro rep
  induction rep with
  | nil => intro _; rfl
  | cons c cs ih =>
    intro h
    have hc : ¬ c = dollar := fun he => h (he ▸ List.mem_cons_self c cs)
    have hcs : dollar ∉ cs := fun hm => h (List.mem_cons_of_mem c hm)
    rw [getSub_nondollar hc, ih hcs]

theorem mem_getSubstitution_aux {pat a b : Str} {x : Char} :
    ∀ (n : Nat) (rep : Str), rep.length ≤ n →
      x ∈ getSubstitution pat a b rep → x ∈ pat ∨ x ∈ a ∨ x ∈ b ∨ x ∈ rep := by
  intro n
  induction n with
  | zero =>
    intro rep hle hx
    have hr : rep = [] := List.eq_nil_of_length_eq_zero (Nat.le_zero.mp hle)
    subst hr
    exact absurd hx (List.not_mem_nil x)
  | succ n ih =>
    intro rep hle hx
    cases rep with
    | nil => exact absurd hx (List.not_mem_nil x)
    | cons c cs =>
      by_cases hc : c = dollar
      · subst hc
        cases cs with
        | nil =>
          rw [getSub_dollar_nil] at hx
          simp only [List.mem_singleton] at hx
          exact Or.inr (Or.inr (Or.inr (by simp [hx])))
        | cons d ds =>
          rw [getSub_dollar_cons] at hx
          have hds : ds.length ≤ n := by
            simp only [List.length_cons] at hle
            omega
          have hlift : x ∈ ds → x ∈ dollar :: d :: ds := fun h => by simp [h]
          by_cases h1 : d = dollar
          · rw [if_pos h1] at hx
            rcases List.mem_cons.mp hx with rfl | hx
            · exact Or.inr (Or.inr (Or.inr (by simp)))
            · rcases ih ds hds hx with h | h | h | h
              · exact Or.inl h
              · exact Or.inr (Or.inl h)
              · exact Or.inr (Or.inr (Or.inl h))
              · exact Or.inr (Or.inr (Or.inr (hlift h)))
          · rw [if_neg h1] at hx
            by_cases h2 : d = '&'
            · rw [if_pos h2] at hx
              rcases List.mem_append.mp hx with h | h
              · exact Or.inl h
              · rcases ih ds hds h with h | h | h | h
                · exact Or.inl h
                · exact Or.inr (Or.inl h)
                · exact Or.inr (Or.inr (Or.inl h))
                · exact Or.inr (Or.inr (Or.inr (hlift h)))
            · rw [if_neg h2] at hx
              by_cases h3 : d = bq
              · rw [if_pos h3] at hx
                rcases List.mem_append.mp hx with h | h
                · exact Or.inr (Or.inl h)
                · rcases ih ds hds h with h | h | h | h
                  · exact Or.inl h
                  · exact Or.inr (Or.inl h)
                  · exact Or.inr (Or.inr (Or.inl h))
                  · exact Or.inr (Or.inr (Or.inr (hlift h)))
              · rw [if_neg h3] at hx
                by_cases h4 : d = qch
                · rw [if_pos h4] at hx
                  rcases List.mem_append.mp hx with h | h
                  · exact Or.inr (Or.inr (Or.inl h))
                  · rcases ih ds hds h with h | h | h | h
                    · exact Or.inl h
                    · exact Or.inr (Or.inl h)
                    · exact Or.inr (Or.inr (Or.inl h))
                    · exact Or.inr (Or.inr (Or.inr (hlift h)))
                · rw [if_neg h4] at hx
                  rcases List.mem_cons.mp hx with rfl | hx
                  · exact Or.inr (Or.inr (Or.inr (by simp)))
                  · rcases List.mem_cons.mp hx with rfl | hx
                    · exact Or.inr (Or.inr (Or.inr (by simp)))
                    · rcases ih ds hds hx with h | h | h | h
                      · exact Or.inl h
                      · exact Or.inr (Or.inl h)
                      · exact Or.inr (Or.inr (Or.inl h))
                      · exact Or.inr (Or.inr (Or.inr (hlift h)))
      · rw [getSub_nondollar hc] at hx
        have hcs : cs.length ≤ n := by
          simp only [List.length_cons] at hle
          omega
        rcases List.mem_cons.mp hx with rfl | hx
        · exact Or.inr (Or.inr (Or.inr (by simp)))
        · rcases ih cs hcs hx with h | h | h | h
          · exact Or.inl h
          · exact Or.inr (Or.inl h)
          · exact Or.inr (Or.inr (Or.inl h))
          · exact Or.inr (Or.inr (Or.inr (by simp [h])))

theorem mem_getSubstitution {pat a b rep : Str} {x : Char}
    (h : x ∈ getSubstitution pat a b rep) : x ∈ pat ∨ x ∈ a ∨ x ∈ b ∨ x ∈ rep :=
  mem_getSubstitution_aux rep.length rep le_rfl h

theorem splitOnce_some {pat : Str} : ∀ {s a b : Str},
    splitOnce pat s = some (a, b) → s = a ++ pat ++ b := by
  intro s
  induction s with
  | nil =>
    intro a b h
    simp only [splitOnce] at h
    split at h
    · rename_i hp
      rw [ List.isPrefixOf_iff_prefix, List.prefix_nil] at hp
      simp only [List.drop_nil, Option.some.injEq, Prod.mk.injEq] at h
      obtain ⟨ha, hb⟩ := h
      simp [← ha, ← hb, hp]
    · simp at h
  | cons c cs ih =>
    intro a b h
    simp only [splitOnce] at h
    split at h
    · rename_i hp
      rw [ List.isPrefixOf_iff_prefix] at hp
      rcases hp with ⟨t, ht⟩
      have hd : (c :: cs).drop pat.length = t := by
        rw [← ht]; exact List.drop_left pat t
      simp only [Option.some.injEq, Prod.mk.injEq] at h
      obtain ⟨ha, hb⟩ := h
      rw [← ha, ← hb, hd]
      simpa using ht.symm
    · rw [Option.map_eq_some'] at h
      rcases h with ⟨⟨x, y⟩, hxy, hf⟩
      have hcs := ih hxy
      simp only [Prod.mk.injEq] at hf
      obtain ⟨ha, hb⟩ := hf
      rw [← ha, ← hb]
      simp [hcs]

theorem replaceFirst_eq_of_split {s pat rep a b : Str}
    (h : splitOnce pat s = some (a, b)) (hd : dollar ∉ rep) :
    replaceFirst s pat rep = a ++ (rep ++ b) := by
  unfold replaceFirst
  rw [h]
  show a ++ (getSubstitution pat a b rep ++ b) = a ++ (rep ++ b)
  rw [getSubstitution_id hd]

theorem mem_replaceFirst {x : Char} {s pat rep : Str} :
    x ∈ replaceFirst s pat rep → x ∈ s ∨ x ∈ rep := by
  unfold replaceFirst
  rcases h : splitOnce pat s with _ | ⟨a, b⟩
  · exact fun hm => Or.inl hm
  · intro hm
    have hs := splitOnce_some h
    simp only [List.mem_append] at hm
    rcases hm with hm | hm | hm
    · exact Or.inl (by rw [hs]; simp [hm])
    · rcases mem_getSubstitution hm with h2 | h2 | h2 | h2
      · exact Or.inl (by rw [hs]; simp [h2])
      · exact Or.inl (by rw [hs]; simp [h2])
      · exact Or.inl (by rw [hs]; simp [h2])
      · exact Or.inr h2
    · exact Or.inl (by rw [hs]; simp [hm])

theorem splitOnce_isSome_append {pat : Str} : ∀ (a b : Str),
    (splitOnce pat (a ++ pat ++ b)).isSome = true := by
  intro a
  induction a with
  | nil =>
    intro b
    have hp : pat.isPrefixOf (pat ++ b) = true := by
      rw [ List.isPrefixOf_iff_prefix]; exact ⟨b, rfl⟩
    show (splitOnce pat (pat ++ b)).isSome = true
    cases hpb : (pat ++ b : Str) with
    | nil =>
      rw [hpb] at hp
      simp only [splitOnce, hp]
      simp
    | cons c cs =>
      rw [hpb] at hp
      simp only [splitOnce, hp]
      simp
  | cons c a' ih =>
    intro b
    show (splitOnce pat (c :: (a' ++ pat ++ b))).isSome = true
    simp only [splitOnce]
    split
    · simp
    · have hib := ih b
      rcases h2 : splitOnce pat (a' ++ pat ++ b) with _ | ⟨x, y⟩
      · rw [h2] at hib; simp at hib
      · simp

theorem containsS_iff {s pat : Str} : containsS s pat = true ↔ pat <:+: s := by
  constructor
  · intro h
    unfold containsS at h
    rcases h2 : splitOnce pat s with _ | ⟨a, b⟩
    · rw [h2] at h; simp at h
    · exact ⟨a, b, by rw [splitOnce_some h2]⟩
  · rintro ⟨a, b, rfl⟩
    exact splitOnce_isSome_append a b

theorem not_infix_of_nmem {c : Char} {pat s : Str} (hc : c ∈ pat) (hs : c ∉ s) :
    ¬ pat <:+: s := fun h => hs (h.subset hc)

theorem joinSep_nmem {c : Char} {sep : Str} (hc : c ∉ sep) :
    ∀ {l : List Str}, (∀ x ∈ l, c ∉ x) → c ∉ joinSep sep l := by
  intro l
  induction l with
  | nil => intro _; simp [joinSep]
  | cons x tl ih =>
    intro h
    cases tl with
    | nil => simpa [joinSep] using h x (by simp)
    | cons y tl' =>
      have hx := h x (by simp)
      have htl : ∀ z ∈ y :: tl', c ∉ z := fun z hz => h z (by simp [hz])
      simp only [joinSep, List.mem_append, List.mem_cons]
      push_neg
      exact ⟨hx, hc, ih htl⟩

theorem joinSep_ne_nil {sep x : Str} {xs : List Str} (hx : x ≠ []) :
    joinSep sep (x :: xs) ≠ [] := by
  cases xs with
  | nil => simpa [joinSep] using hx
  | cons y tl => simp [joinSep, hx]

theorem lookupA_mem : ∀ {l : List (Str × Str)} {k v : Str},
    lookupA l k = some v → (k, v) ∈ l := by
  intro l
  induction l with
  | nil => intro k v h; simp [lookupA] at h
  | cons kv tl ih =>
    intro k v h
    rcases kv with ⟨k', v'⟩
    simp only [lookupA] at h
    split at h
    · rename_i he
      injection h with h'
      simp [he, h']
    · exact List.mem_cons_of_mem _ (ih h)

theorem lookupD_cases (l : List (Str × Str)) (k : Str) :
    lookupD l k = [] ∨ (k, lookupD l k) ∈ l := by
  unfold lookupD
  rcases h : lookupA l k with _ | v
  · simp
  · simp only [Option.getD_some]
    exact Or.inr (lookupA_mem h)

theorem updateA_mem : ∀ {l : List (Str × Str)} {k nv : Str} {kv : Str × Str},
    kv ∈ updateA l k nv → kv ∈ l ∨ kv.2 = nv := by
  intro l
  induction l with
  | nil => intro k nv kv h; simp [updateA] at h
  | cons hd tl ih =>
    intro k nv kv h
    rcases hd with ⟨k', v'⟩
    simp only [updateA] at h
    split at h
    · rcases List.mem_cons.mp h with h | h
      · exact Or.inr (by simp [h])
      · exact Or.inl (List.mem_cons_of_mem _ h)
    · rcases List.mem_cons.mp h with h | h
      · exact Or.inl (by simp [h])
      · rcases ih h with h | h
        · exact Or.inl (List.mem_cons_of_mem _ h)
        · exact Or.inr h

theorem lookupA_cons_ne {k' v k : Str} {tl : List (Str × Str)} (h : k' ≠ k) :
    lookupA ((k', v) :: tl) k = lookupA tl k := by
  simp [lookupA, h]

theorem lookupA_cons_eq {k v : Str} {tl : List (Str × Str)} :
    lookupA ((k, v) :: tl) k = some v := by
  simp [lookupA]

end StrLemmas

/-! ## Node-side prompt builder (`utils/promptBuilder.js`) -/

namespace PB

/-- `PROMPT_TEMPLATES.init.base`. -/
def initBase : Str := str "Create " ++ phKey (str "projectType") ++ str " project with " ++ phKey (str "framework")

/-- `PROMPT_TEMPLATES.init.withProjectName`. -/
def initWithProjectName : Str :=
  str "Create " ++ phKey (str "projectType") ++ str " project called " ++ [qch] ++
    phKey (str "projectName") ++ [qch] ++ str " with " ++ phKey (str "framework")

/-- `PROMPT_TEMPLATES.init.structure`. -/
def initStructure : List (Str × Str) :=
  [(str "flat", str "Single directory"),
   (str "layered", str "Organized folders"),
   (str "modular", str "Feature-based structure"),
   (str "monorepo", str "Monorepo with multiple packages")]

/-- `PROMPT_TEMPLATES.init.frameworks`. -/
def initFrameworks : List (Str × Str) :=
  [(str "react", str "Follow React 18+ patterns, hooks, and modern practices"),
   (str "vue", str "Use Vue 3 Composition API and TypeScript support"),
   (str "angular", str "Follow Angular 15+ conventions with standalone components"),
   (str "svelte", str "Use SvelteKit patterns and TypeScript configuration"),
   (str "next", str "Configure Next.js 14+ with App Router"),
   (str "nuxt", str "Set up Nuxt 3 with auto-imports and TypeScript"),
   (str "express", str "Modern Express.js with middleware patterns"),
   (str "fastify", str "High-performance Fastify server setup"),
   (str "nest", str "NestJS with decorators and dependency injection"),
   (str "electron", str "Electron with security best practices"),
   (str "tauri", str "Tauri with Rust backend integration"),
   (str "astro", str "Astro with island architecture"),
   (str "gatsby", str "Gatsby with GraphQL data layer"),
   (str "vite", str "Vite build configuration and plugins"),
   (str "webpack", str "Modern webpack configuration"),
   (str "esbuild", str "ESBuild bundler setup"),
   (str "rollup", str "Rollup configuration for libraries")]

/-- `PROMPT_TEMPLATES.feature.base`. -/
def featureBase : Str := str "Implement " ++ phKey (str "feature") ++ str " as " ++ phKey (str "pattern")

/-- `PROMPT_TEMPLATES.feature.patterns`. -/
def featurePatterns : List (Str × Str) :=
  [(str "function", str "pure functions with TypeScript"),
   (str "class", str "class-based module with encapsulation"),
   (str "hook", str "React hook with proper dependencies"),
   (str "service", str "service layer with dependency injection"),
   (str "component", str "reusable component with props interface"),
   (str "utility", str "utility function with comprehensive tests"),
   (str "middleware", str "middleware with error handling"),
   (str "api", str "RESTful API endpoint with validation")]

/-- `PROMPT_TEMPLATES.feature.scope`. -/
def featureScope : List (Str × Str) :=
  [(str "component", str "single component with tests"),
   (str "module", str "complete module with documentation"),
   (str "feature", str "full feature set with integration tests"),
   (str "system", str "system-wide implementation with monitoring")]

/-- `PROMPT_TEMPLATES.architecture.base`. -/
def architectureBase : Str :=
  str "Design " ++ phKey (str "feature") ++ str " using " ++ phKey (str "pattern") ++ str " pattern"

/-- `PROMPT_TEMPLATES.architecture.patterns`. -/
def architecturePatterns : List (Str × Str) :=
  [(str "mvc", str "MVC with clear separation of concerns"),
   (str "layered", str "layered architecture with dependency inversion"),
   (str "hexagonal", str "hexagonal/ports-adapters with clean boundaries"),
   (str "microservice", str "microservice with proper communication patterns"),
   (str "eventdriven", str "event-driven architecture with message queues"),
   (str "cqrs", str "CQRS with command and query separation"),
   (str "ddd", str "domain-driven design with bounded contexts")]

/-- `PROMPT_TEMPLATES.testing.base`. -/
def testingBase : Str :=
  str "Write " ++ phKey (str "testType") ++ str " tests for " ++ phKey (str "module") ++
    str " using " ++ phKey (str "library")

/-- `PROMPT_TEMPLATES.testing.types`. -/
def testingTypes : List (Str × Str) :=
  [(str "unit", str "unit tests with mocking"),
   (str "integration", str "integration tests with real dependencies"),
   (str "e2e", str "end-to-end tests with user scenarios"),
   (str "performance", str "performance tests with benchmarks"),
   (str "security", str "security tests with vulnerability scanning")]

/-- `PROMPT_TEMPLATES.testing.libraries`. -/
def testingLibraries : List (Str × Str) :=
  [(str "jest", str "Jest with TypeScript support"),
   (str "vitest", str "Vitest with fast execution"),
   (str "cypress", str "Cypress for E2E testing"),
   (str "playwright", str "Playwright for cross-browser testing"),
   (str "rtl", str "React Testing Library for component tests")]

/-- `PROMPT_TEMPLATES.docs.base`. -/
def docsBase : Str :=
  str "Generate " ++ phKey (str "docType") ++ str " documentation for " ++ phKey (str "projectName")

/-- `PROMPT_TEMPLATES.docs.types`. -/
def docsTypes : List (Str × Str) :=
  [(str "api", str "OpenAPI/Swagger API documentation"),
   (str "user", str "comprehensive user guide with examples"),
   (str "dev", str "developer setup with troubleshooting"),
   (str "arch", str "architecture overview with diagrams"),
   (str "changelog", str "structured changelog with versioning"),
   (str "contributing", str "contribution guidelines with workflows"),
   (str "security", str "security documentation with best practices"),
   (str "performance", str "performance guide with optimization strategies")]

/-- `PROMPT_TEMPLATES.fix.base`. -/
def fixBase : Str :=
  str "Fix " ++ phKey (str "issue") ++ str " in " ++ phKey (str "component") ++
    str " using " ++ phKey (str "approach")

/-- `PROMPT_TEMPLATES.fix.approaches`. -/
def fixApproaches : List (Str × Str) :=
  [(str "debug", str "systematic debugging with logging"),
   (str "refactor", str "code refactoring with backward compatibility"),
   (str "optimize", str "performance optimization with benchmarks"),
   (str "patch", str "minimal patch fix with regression tests"),
   (str "rewrite", str "partial rewrite with migration strategy"),
   (str "security", str "security fix with vulnerability assessment")]

/-- `PROMPT_TEMPLATES.fix.priorities`. -/
def fixPriorities : List (Str × Str) :=
  [(str "critical", str "critical priority - immediate fix required"),
   (str "high", str "high priority - fix within 24 hours"),
   (str "medium", str "medium priority - address in next sprint"),
   (str "low", str "low priority - backlog item")]

/-- `PROMPT_TEMPLATES.fix.categories`. -/
def fixCategories : List (Str × Str) :=
  [(str "performance", str "performance issue affecting user experience"),
   (str "security", str "security vulnerability requiring immediate attention"),
   (str "functionality", str "functionality bug breaking expected behavior"),
   (str "ui", str "UI/UX issue affecting user interaction"),
   (str "integration", str "integration issue with external services"),
   (str "compatibility", str "compatibility issue across environments")]

/-- `OUTPUT_FORMATS`. -/
def outputFormats : List (Str × Str) :=
  [(str "code", str "Code only, no explanations"),
   (str "commented", str "Code with inline comments"),
   (str "guided", str "Code with brief setup steps"),
   (str "detailed", str "Code with comprehensive explanation")]

/-- `COMPLEXITY_LEVELS`. -/
def complexityLevels : List (Str × Str) :=
  [(str "simple", str "Basic implementation, <50 lines"),
   (str "medium", str "Standard features, <200 lines"),
   (str "complex", str "Full implementation, optimized")]

/-- The `styles` literal inside `buildPrompt`. -/
def codeStyles : List (Str × Str) :=
  [(str "functional", str "Functional programming with immutability"),
   (str "oop", str "Object-oriented with SOLID principles"),
   (str "minimal", str "Minimal, clean code with clear naming")]

/-- The `structures` literal inside `buildPrompt`. -/
def fileStructures : List (Str × Str) :=
  [(str "single", str "Single file solution with clear sections"),
   (str "split", str "Separate files by concern with barrel exports"),
   (str "modular", str "Modular file structure with index files")]

/-- The `deps` literal inside `buildPrompt`. -/
def depPrefs : List (Str × Str) :=
  [(str "none", str "No external dependencies - pure implementation"),
   (str "minimal", str "Minimal dependencies only - prefer built-ins"),
   (str "standard", str "Common libraries allowed - focus on stability")]

/-- The `formatSpecs` literal inside the docs case. -/
def formatSpecs : List (Str × Str) :=
  [(str "markdown", str "Markdown format with proper headers and syntax"),
   (str "text", str "Plain text format, well-structured"),
   (str "html", str "HTML format with semantic markup"),
   (str "json", str "JSON format for API specifications"),
   (str "yaml", str "YAML format for structured configuration"),
   (str "rst", str "reStructuredText format with proper directives")]

/-- The `detailLevels` literal inside the docs case. -/
def detailLevels : List (Str × Str) :=
  [(str "minimal", str "Minimal documentation - key points and essential info only"),
   (str "standard", str "Standard documentation - comprehensive coverage"),
   (str "detailed", str "Detailed documentation with in-depth explanations and examples"),
   (str "tutorial", str "Tutorial-style documentation with step-by-step guidance")]

/-- The `diagramTypeNames` literal inside the docs case. -/
def diagramTypeNames : List (Str × Str) :=
  [(str "flowchart", str "flow charts"),
   (str "architecture", str "architecture diagrams"),
   (str "database", str "database schemas"),
   (str "sequence", str "sequence diagrams"),
   (str "class", str "class diagrams"),
   (str "network", str "network diagrams"),
   (str "gantt", str "gantt charts"),
   (str "mindmap", str "mindmaps")]

/-- The six keys of `PROMPT_TEMPLATES`. -/
def knownTypes : List Str :=
  [str "init", str "feature", str "architecture", str "testing", str "docs", str "fix"]

/-- The names inherited from `Object.prototype`: indexing any object
literal of the source with one of these strings hits the prototype chain
and yields a truthy value (a built-in function, or `Object.prototype`
itself for the `__proto__` accessor). -/
def protoKeys : List Str :=
  [str "constructor", str "hasOwnProperty", str "isPrototypeOf",
   str "propertyIsEnumerable", str "toLocaleString", str "toString", str "valueOf",
   str "__defineGetter__", str "__defineSetter__", str "__lookupGetter__",
   str "__lookupSetter__", str "__proto__"]

/-- Node's rendering of the inherited `Object.prototype` member at key
`k` where the source stringifies it (a template literal or
`Array.prototype.join` on the constraints array): the `__proto__`
accessor yields `Object.prototype` itself, `constructor` is the `Object`
function, and every other member is the eponymous built-in function. -/
def protoVal (k : Str) : Str :=
  if k = str "__proto__" then str "[object Object]"
  else
    str "function " ++
      ((if k = str "constructor" then str "Object" else k) ++
        (str "() " ++ ([lb] ++ (str " [native code] " ++ [rb]))))

/-- The text a `replace` call inserts when its replacement value is the
inherited `Object.prototype` member at key `k` (Node, sloppy mode): the
`__proto__` accessor result is not callable and is stringified;
`constructor` is the `Object` function, whose replacer call wraps and
echoes the matched placeholder; `toString`, `toLocaleString` and
`valueOf` render the replacer-call `this`, the global object;
`__lookupGetter__` and `__lookupSetter__` return `undefined`; the
remaining three members are predicates returning `false` on a
placeholder argument. -/
def protoReplacerResult (k key : Str) : Str :=
  if k = str "__proto__" then str "[object Object]"
  else if k = str "constructor" then phKey key
  else if k = str "toString" ∨ k = str "toLocaleString" ∨ k = str "valueOf" then
    str "[object global]"
  else if k = str "__lookupGetter__" ∨ k = str "__lookupSetter__" then str "undefined"
  else str "false"

/-- An option value that stays clear of the replacement machinery's edge
cases: no brace (it cannot smuggle a placeholder token in), no dollar
(the replacement text is inserted verbatim), and not a name - directly or
after the `toLowerCase` of the testing-library lookup - inherited from
`Object.prototype`. -/
@[reducible] def clean (v : Str) : Prop :=
  lb ∉ v ∧ dollar ∉ v ∧ v ∉ protoKeys ∧ toLowerS v ∉ protoKeys

/-- The trailing clarification clause appended unconditionally. -/
def clarify : Str := str " Ask user to clarify if necessary."

/-- The custom-framework mutation performed at the top of `buildPrompt`
(lines 146-148): when `options.framework === 'other'` and
`options.customFramework` is truthy, the caller's `options.framework`
property is overwritten in place. -/
def mutateOptions (options : List (Str × Str)) : List (Str × Str) :=
  if lookupA options (str "framework") = some (str "other") ∧
      lookupD options (str "customFramework") ≠ [] then
    updateA options (str "framework") (lookupD options (str "customFramework"))
  else options

/-- `options[key] || 'default'`. -/
def substVal (v : Str) : Str := if v = [] then str "default" else v

/-- The generic substitution pass: for each own key of `options`, in
insertion order, replace the first occurrence of its placeholder. -/
def substKeys (options : List (Str × Str)) (tmpl : Str) : Str :=
  options.foldl (fun p kv => replaceFirst p (phKey kv.1) (substVal kv.2)) tmpl

/-- `if (options.x && DICT[options.x]) constraints.push(DICT[options.x])`:
an own dictionary entry is pushed as is; at a name inherited from
`Object.prototype` the guard is still truthy and the inherited member is
pushed, rendered by the later stringification as `protoVal`. -/
def dictClause (dict : List (Str × Str)) (v : Str) : List Str :=
  if v ≠ [] then
    match lookupA dict v with
    | some c => [c]
    | none => if v ∈ protoKeys then [protoVal v] else []
  else []

/-- A `dictClause` whose pushed text is prefixed (`Scope: `, `Priority: `,
`Issue type: `). -/
def dictClauseWith (pre : Str) (dict : List (Str × Str)) (v : Str) : List Str :=
  (dictClause dict v).map fun c => pre ++ c

/-- A switch-case rewrite `prompt.replace(ph, DICT[options.key])` guarded
by `options.key && DICT[options.key]`, where `ph` is the key's
placeholder.  An own dictionary entry is a string replacement; at a name
inherited from `Object.prototype` the guard is still truthy and `replace`
receives the inherited member itself, so a present placeholder is
rewritten with the replacer-call result - `none` models the `TypeError`
the two define-accessor members raise when invoked as replacers (their
second argument, the match offset, is not callable); with the guard falsy
the prompt is unchanged. -/
def dictSubst (dict : List (Str × Str)) (key : Str) (v : Str) (p : Str) : Option Str :=
  if v ≠ [] then
    match lookupA dict v with
    | some c => some (replaceFirst p (phKey key) c)
    | none =>
      if v ∈ protoKeys then
        if (v = str "__defineGetter__" ∨ v = str "__defineSetter__") ∧
            containsS p (phKey key) = true then none
        else some (replaceFirst p (phKey key) (protoReplacerResult v key))
      else some p
  else some p

/-- Constraints pushed for every task type, in source order: output
format, complexity, code style, file structure, dependencies. -/
def genericConstraints (o : List (Str × Str)) : List Str :=
  dictClause outputFormats (lookupD o (str "outputFormat")) ++
  dictClause complexityLevels (lookupD o (str "complexity")) ++
  dictClause codeStyles (lookupD o (str "codeStyle")) ++
  dictClause fileStructures (lookupD o (str "fileStructure")) ++
  dictClause depPrefs (lookupD o (str "dependencies"))

/-- The init-case constraints: package manager, then structure. -/
def initConstraints (o : List (Str × Str)) : List Str :=
  (if lookupD o (str "packageManager") ≠ [] then
    (if lookupD o (str "packageManager") = str "none" then
      [str "No package manager needed - pure static files"]
    else
      [str "Use " ++ lookupD o (str "packageManager") ++ str " with latest best practices"])
  else []) ++
  dictClause initStructure (lookupD o (str "structure"))

/-- The feature-case constraints: scope. -/
def featureConstraints (o : List (Str × Str)) : List Str :=
  dictClauseWith (str "Scope: ") featureScope (lookupD o (str "scope"))

/-- `testingLibrary` after the custom-library substitution. -/
def testingLibraryName (o : List (Str × Str)) : Str :=
  if lookupA o (str "library") = some (str "Other") ∧ lookupD o (str "customLibrary") ≠ [] then
    lookupD o (str "customLibrary")
  else lookupD o (str "library")

/-- The testing-case constraints: library, then coverage (the lowercased
library name can itself hit the prototype chain of the `libraries`
table). -/
def testingConstraints (o : List (Str × Str)) : List Str :=
  (if testingLibraryName o ≠ [] then
    match lookupA testingLibraries (toLowerS (testingLibraryName o)) with
    | some c => [c]
    | none =>
      if toLowerS (testingLibraryName o) ∈ protoKeys then
        [protoVal (toLowerS (testingLibraryName o))]
      else [str "Using " ++ testingLibraryName o]
  else []) ++
  (if lookupD o (str "coverage") ≠ [] then
    [str "Target " ++ lookupD o (str "coverage") ++ str "% coverage with meaningful tests"]
  else [])

/-- The docs-case diagram constraint (string-valued `diagramTypes`;
the CLI array branch is outside the model). -/
def docsDiagramClause (o : List (Str × Str)) : List Str :=
  if lookupD o (str "includeDiagrams") = str "true" then
    [str "Include " ++
      joinSep (str ", ")
        ((if lookupD o (str "diagramTypes") ≠ [] then [lookupD o (str "diagramTypes")]
          else [str "flowchart", str "architecture"]).map
          fun t =>
            match lookupA diagramTypeNames t with
            | some c => c
            | none => if t ∈ protoKeys then protoVal t else t) ++
      str " using " ++
      (if lookupA o (str "diagramTool") = some (str "other") ∧
          lookupD o (str "customDiagramTool") ≠ [] then
        lookupD o (str "customDiagramTool")
      else if lookupD o (str "diagramTool") ≠ [] then lookupD o (str "diagramTool")
      else str "mermaid") ++
      str " syntax"]
  else []

/-- The docs-case constraints: format, detail level, diagrams, examples,
table of contents. -/
def docsConstraints (o : List (Str × Str)) : List Str :=
  dictClause formatSpecs (lookupD o (str "format")) ++
  dictClause detailLevels (lookupD o (str "detailLevel")) ++
  docsDiagramClause o ++
  (if lookupD o (str "includeExamples") = str "true" then
    [str "Include practical code examples and snippets"]
  else []) ++
  (if lookupD o (str "includeToc") = str "true" then
    [str "Generate table of contents with proper navigation"]
  else [])

/-- The fix-case constraints: priority, error message, category. -/
def fixConstraints (o : List (Str × Str)) : List Str :=
  dictClauseWith (str "Priority: ") fixPriorities (lookupD o (str "priority")) ++
  (if lookupD o (str "errorMessage") ≠ [] then
    [str "Error context: \"" ++ lookupD o (str "errorMessage") ++ str "\""]
  else []) ++
  dictClauseWith (str "Issue type: ") fixCategories (lookupD o (str "category"))

/-- All constraint clauses collected by `buildPrompt`, in push order
(`o` is the options object after the custom-framework mutation). -/
def promptConstraints (type : Str) (o : List (Str × Str)) : List Str :=
  (if type = str "init" then dictClause initFrameworks (lookupD o (str "framework")) else []) ++
  genericConstraints o ++
  (if type = str "init" then initConstraints o
   else if type = str "feature" then featureConstraints o
   else if type = str "testing" then testingConstraints o
   else if type = str "docs" then docsConstraints o
   else if type = str "fix" then fixConstraints o
   else [])

/-- The prompt text before the constraints suffix: generic placeholder
substitution, the init template switch, and the (placeholder-targeted)
dictionary rewrites of the switch cases; `none` models a `TypeError`
raised by a rewrite. -/
def promptCore (type : Str) (o : List (Str × Str)) : Option Str :=
  if type = str "init" then
    some (if lookupD o (str "projectName") ≠ [] ∧ hasNonWs (lookupD o (str "projectName")) then
      substKeys o initWithProjectName
    else substKeys o initBase)
  else if type = str "feature" then
    dictSubst featurePatterns (str "pattern") (lookupD o (str "pattern")) (substKeys o featureBase)
  else if type = str "architecture" then
    dictSubst architecturePatterns (str "pattern") (lookupD o (str "pattern"))
      (substKeys o architectureBase)
  else if type = str "testing" then
    dictSubst testingTypes (str "testType") (lookupD o (str "testType")) (substKeys o testingBase)
  else if type = str "docs" then
    dictSubst docsTypes (str "docType") (lookupD o (str "docType")) (substKeys o docsBase)
  else if type = str "fix" then
    dictSubst fixApproaches (str "approach") (lookupD o (str "approach")) (substKeys o fixBase)
  else some []

/-- The `. Constraints: ...` segment, emitted only when at least one
clause was collected. -/
def constraintsSeg (type : Str) (o : List (Str × Str)) : Str :=
  if promptConstraints type o = [] then []
  else str ". Constraints: " ++ joinSep (str ", ") (promptConstraints type o) ++ str "."

/-- `buildPrompt` with its effect on the caller's `options` object made
explicit: the first component is the call's result (`none` models a
raised `TypeError`), the second the caller's options object after the
call.  The early-return guard `!PROMPT_TEMPLATES[type]` is falsy for the
six own template keys and also for every name inherited from
`Object.prototype`: at an inherited name the guard passes, the
custom-framework mutation still runs, and `template.base` is `undefined`
- with no own option key the `undefined` flows into the final string
concatenation, otherwise the first generic-pass iteration calls
`replace` on `undefined` and throws. -/
def buildPromptS (type : Str) (options : List (Str × Str)) :
    Option Str × List (Str × Str) :=
  if type ∈ knownTypes then
    ((promptCore type (mutateOptions options)).map fun core =>
      (core ++ constraintsSeg type (mutateOptions options)) ++ clarify,
     mutateOptions options)
  else if type ∈ protoKeys then
    (if options = [] then some (str "undefined" ++ clarify) else none,
     mutateOptions options)
  else (some (str "Unknown prompt type."), options)

/-- The result of a `buildPrompt` call. -/
def buildPrompt (type : Str) (options : List (Str × Str)) : Option Str :=
  (buildPromptS type options).1

end PB

/-! ## Browser-side prompt builder (`web/app.js`) -/

namespace WB

/-- `\w` of the cleanup regex (ASCII word character). -/
def isWordChar (c : Char) : Bool := c.isAlphanum || c = '_'

/-- One scanning step of `prompt.replace(re, 'component')` where `re` is
the global placeholder regex: at each position try to match
left-brace, left-brace, a nonempty word-character run, right-brace,
right-brace; on a match emit `component` and continue after it, otherwise
emit the character and advance by one. -/
def cleanupF : Nat → Str → Str
  | 0, s => s
  | _ + 1, [] => []
  | n + 1, c :: cs =>
    if c = lb then
      match cs with
      | c2 :: cs2 =>
        if c2 = lb then
          (let w := cs2.takeWhile isWordChar
           let rest := cs2.drop w.length
           if w ≠ [] ∧ ([rb, rb]).isPrefixOf rest then
             str "component" ++ cleanupF n (rest.drop 2)
           else c :: cleanupF n cs)
        else c :: cleanupF n cs
      | [] => [c]
    else c :: cleanupF n cs

/-- The final cleanup pass replacing leftover placeholders with
`component`. -/
def cleanup (s : Str) : Str := cleanupF s.length s

/-- The `fallbackValues` table of the web `buildPrompt`. -/
def fallbackValues : List (Str × Str) :=
  [(str "projectType", str "node"),
   (str "framework", str "vanilla"),
   (str "feature", str "component"),
   (str "pattern", str "function"),
   (str "module", str "service"),
   (str "testType", str "unit"),
   (str "library", str "Jest"),
   (str "docType", str "api"),
   (str "projectName", str "project"),
   (str "issue", str "bug"),
   (str "component", str "component"),
   (str "approach", str "debug")]

/-- `completeOptions = { ...fallbackValues, ...options }`: fallback keys
in table order with the caller's value where present, then the caller's
remaining keys in insertion order. -/
def mergeOptions (options : List (Str × Str)) : List (Str × Str) :=
  (fallbackValues.map fun kv => (kv.1, (lookupA options kv.1).getD kv.2)) ++
    options.filter fun kv => lookupA fallbackValues kv.1 = none

/-- `completeOptions[key] || fallbackValues[key] || 'default'`. -/
def substValW (k v : Str) : Str :=
  if v ≠ [] then v
  else if lookupD fallbackValues k ≠ [] then lookupD fallbackValues k
  else str "default"

/-- The web generic substitution pass: every key of `completeOptions`, in
order, with a global-regex replace, skipping `docType` for docs and
`projectName` for init. -/
def substKeysW (type : Str) (co : List (Str × Str)) (tmpl : Str) : Str :=
  co.foldl
    (fun p kv =>
      if (type = str "docs" ∧ kv.1 = str "docType") ∨
          (type = str "init" ∧ kv.1 = str "projectName") then p
      else replaceAll p (phKey kv.1) (substValW kv.1 kv.2))
    tmpl

/-- The init-case re-substitution over `withProjectName` (no skip list). -/
def substKeysWAll (co : List (Str × Str)) (tmpl : Str) : Str :=
  co.foldl (fun p kv => replaceAll p (phKey kv.1) (substValW kv.1 kv.2)) tmpl

/-- Web `PROMPT_TEMPLATES.feature.patterns`. -/
def featurePatternsW : List (Str × Str) :=
  [(str "function", str "pure functions"),
   (str "class", str "class-based module"),
   (str "hook", str "React hook"),
   (str "service", str "service layer")]

/-- Web `PROMPT_TEMPLATES.feature.scope`. -/
def featureScopeW : List (Str × Str) :=
  [(str "component", str "single component"),
   (str "module", str "complete module"),
   (str "feature", str "full feature set")]

/-- Web `PROMPT_TEMPLATES.architecture.patterns`. -/
def architecturePatternsW : List (Str × Str) :=
  [(str "mvc", str "MVC"),
   (str "layered", str "layered architecture"),
   (str "hexagonal", str "hexagonal/ports-adapters"),
   (str "microservice", str "microservice")]

/-- Web `PROMPT_TEMPLATES.testing.types`. -/
def testingTypesW : List (Str × Str) :=
  [(str "unit", str "unit"),
   (str "integration", str "integration"),
   (str "e2e", str "end-to-end")]

/-- Web `PROMPT_TEMPLATES.docs.types`. -/
def docsTypesW : List (Str × Str) :=
  [(str "api", str "API documentation"),
   (str "user", str "user guide"),
   (str "dev", str "developer setup"),
   (str "arch", str "architecture overview"),
   (str "changelog", str "changelog"),
   (str "contributing", str "contributing guidelines"),
   (str "security", str "security documentation"),
   (str "performance", str "performance guide")]

/-- Web `PROMPT_TEMPLATES.fix.approaches`. -/
def fixApproachesW : List (Str × Str) :=
  [(str "debug", str "systematic debugging"),
   (str "refactor", str "code refactoring"),
   (str "optimize", str "performance optimization"),
   (str "patch", str "minimal patch fix"),
   (str "rewrite", str "partial rewrite")]

/-- Web `PROMPT_TEMPLATES.fix.priorities`. -/
def fixPrioritiesW : List (Str × Str) :=
  [(str "critical", str "critical priority"),
   (str "high", str "high priority"),
   (str "medium", str "medium priority"),
   (str "low", str "low priority")]

/-- Web `OUTPUT_FORMATS`. -/
def outputFormatsW : List (Str × Str) :=
  [(str "code", str "Code only, no explanations, no markdown"),
   (str "commented", str "Code with inline comments"),
   (str "guided", str "Code with brief setup steps"),
   (str "detailed", str "Code with comprehensive explanation")]

/-- The web `styles` literal. -/
def codeStylesW : List (Str × Str) :=
  [(str "functional", str "Functional programming style"),
   (str "oop", str "Object-oriented approach"),
   (str "minimal", str "Minimal, clean code")]

/-- The web `structures` literal. -/
def fileStructuresW : List (Str × Str) :=
  [(str "single", str "Single file solution"),
   (str "split", str "Separate files by concern"),
   (str "modular", str "Modular file structure")]

/-- The web `deps` literal. -/
def depPrefsW : List (Str × Str) :=
  [(str "none", str "No external dependencies"),
   (str "minimal", str "Minimal dependencies only"),
   (str "standard", str "Common libraries allowed")]

/-- The web docs diagram constraint (single-select `diagramTypes`,
default `flowchart`). -/
def docsDiagramClauseW (co : List (Str × Str)) : List Str :=
  if lookupD co (str "includeDiagrams") = str "true" then
    [str "Include " ++
      joinSep (str ", ")
        ((if lookupD co (str "diagramTypes") ≠ [] then [lookupD co (str "diagramTypes")]
          else [str "flowchart"]).map
          fun t =>
            match lookupA PB.diagramTypeNames t with
            | some c => c
            | none => if t ∈ PB.protoKeys then PB.protoVal t else t) ++
      str " using " ++
      (if lookupA co (str "diagramTool") = some (str "other") ∧
          lookupD co (str "customDiagramTool") ≠ [] then
        lookupD co (str "customDiagramTool")
      else if lookupD co (str "diagramTool") ≠ [] then lookupD co (str "diagramTool")
      else str "mermaid") ++
      str " syntax"]
  else []

/-- The web testing `testingLibrary` after the custom-library check. -/
def testingLibraryNameW (co : List (Str × Str)) : Str :=
  if lookupA co (str "library") = some (str "Other") ∧ lookupD co (str "customLibrary") ≠ [] then
    lookupD co (str "customLibrary")
  else lookupD co (str "library")

/-- All constraint clauses of the web `buildPrompt`, in push order (the
web init case has no framework clause; the web testing template has no
`libraries` table, so a truthy library always pushes `Using ...`; the web
fix case has no category clause and pushes `Error: "..."`). -/
def promptConstraintsW (type : Str) (co : List (Str × Str)) : List Str :=
  PB.dictClause outputFormatsW (lookupD co (str "outputFormat")) ++
  PB.dictClause PB.complexityLevels (lookupD co (str "complexity")) ++
  PB.dictClause codeStylesW (lookupD co (str "codeStyle")) ++
  PB.dictClause fileStructuresW (lookupD co (str "fileStructure")) ++
  PB.dictClause depPrefsW (lookupD co (str "dependencies")) ++
  (if type = str "init" then
    (if lookupD co (str "packageManager") ≠ [] then
      (if lookupD co (str "packageManager") = str "none" then
        [str "No package manager needed - pure static files"]
      else
        [str "Use " ++ lookupD co (str "packageManager") ++ str " with latest best practices"])
    else []) ++
    PB.dictClause PB.initStructure (lookupD co (str "structure"))
  else if type = str "feature" then
    PB.dictClauseWith (str "Scope: ") featureScopeW (lookupD co (str "scope"))
  else if type = str "testing" then
    (if testingLibraryNameW co ≠ [] then [str "Using " ++ testingLibraryNameW co] else []) ++
    (if lookupD co (str "coverage") ≠ [] then
      [str "Target " ++ lookupD co (str "coverage") ++ str "% coverage with meaningful tests"]
    else [])
  else if type = str "docs" then
    PB.dictClause PB.formatSpecs (lookupD co (str "format")) ++
    PB.dictClause PB.detailLevels (lookupD co (str "detailLevel")) ++
    docsDiagramClauseW co ++
    (if lookupD co (str "includeExamples") = str "true" then
      [str "Include practical code examples and snippets"]
    else []) ++
    (if lookupD co (str "includeToc") = str "true" then
      [str "Generate table of contents with proper navigation"]
    else [])
  else if type = str "fix" then
    PB.dictClauseWith (str "Priority: ") fixPrioritiesW (lookupD co (str "priority")) ++
    (if lookupD co (str "errorMessage") ≠ [] then
      [str "Error: \"" ++ lookupD co (str "errorMessage") ++ str "\""]
    else [])
  else [])

/-- The browser counterpart of `PB.protoReplacerResult`: the replacer
`this` is the `window` object. -/
def protoReplacerResultW (k key : Str) : Str :=
  if k = str "__proto__" then str "[object Object]"
  else if k = str "constructor" then phKey key
  else if k = str "toString" ∨ k = str "toLocaleString" ∨ k = str "valueOf" then
    str "[object Window]"
  else if k = str "__lookupGetter__" ∨ k = str "__lookupSetter__" then str "undefined"
  else str "false"

/-- A switch-case prompt rewrite of the web builder (global regex with a
string or inherited-member replacement; the prototype-chain cases mirror
`PB.dictSubst`, with the replacer invoked at every match). -/
def dictSubstW (dict : List (Str × Str)) (key : Str) (v : Str) (p : Str) : Option Str :=
  if v ≠ [] then
    match lookupA dict v with
    | some c => some (replaceAll p (phKey key) c)
    | none =>
      if v ∈ PB.protoKeys then
        if (v = str "__defineGetter__" ∨ v = str "__defineSetter__") ∧
            containsS p (phKey key) = true then none
        else some (replaceAll p (phKey key) (protoReplacerResultW v key))
      else some p
  else some p

/-- The web prompt text before cleanup and constraints (`none` models a
`TypeError` raised by a switch-case rewrite). -/
def promptCoreW (type : Str) (options co : List (Str × Str)) : Option Str :=
  if type = str "init" then
    some (if lookupD options (str "projectName") ≠ [] ∧
        hasNonWs (lookupD options (str "projectName")) then
      substKeysWAll co PB.initWithProjectName
    else substKeysW type co PB.initBase)
  else if type = str "feature" then
    dictSubstW featurePatternsW (str "pattern") (lookupD co (str "pattern"))
      (substKeysW type co PB.featureBase)
  else if type = str "architecture" then
    dictSubstW architecturePatternsW (str "pattern") (lookupD co (str "pattern"))
      (substKeysW type co PB.architectureBase)
  else if type = str "testing" then
    dictSubstW testingTypesW (str "testType") (lookupD co (str "testType"))
      (substKeysW type co PB.testingBase)
  else if type = str "docs" then
    dictSubstW docsTypesW (str "docType") (lookupD co (str "docType"))
      (substKeysW type co PB.docsBase)
  else if type = str "fix" then
    dictSubstW fixApproachesW (str "approach") (lookupD co (str "approach"))
      (substKeysW type co PB.fixBase)
  else some []

/-- The web `buildPrompt`: fallback merge, custom-framework substitution
on the merged copy (the caller's object is not written), generic global
substitution with skip rules, switch-case rewrites and constraints,
placeholder cleanup, constraints segment, clarification suffix.  The
early-return guard is falsy at a name inherited from `Object.prototype`
too; there `template.base` is `undefined` and, since the merged
`completeOptions` always carries the twelve fallback keys, the first
generic-pass iteration calls `replace` on `undefined` and throws
(`none`). -/
def buildPromptW (type : Str) (options : List (Str × Str)) : Option Str :=
  if type ∈ PB.knownTypes then
    (let co0 := mergeOptions options
     let co :=
       if lookupA co0 (str "framework") = some (str "other") ∧
           lookupD co0 (str "customFramework") ≠ [] then
         updateA co0 (str "framework") (lookupD co0 (str "customFramework"))
       else co0
     (promptCoreW type options co).map fun core =>
       (cleanup core ++
         (if promptConstraintsW type co = [] then []
          else str ". Constraints: " ++ joinSep (str ", ") (promptConstraintsW type co) ++
            str ".") ++
         PB.clarify))
  else if type ∈ PB.protoKeys then none
  else some (str "Unknown prompt type.")

end WB

/-! ## Optimizer module (`utils/promptOptimizer.js`) -/

namespace PO

/-- The project-context facts consumed by `optimizePrompt`
(`analyzeProjectContext` output; an absent context is all-defaults). -/
structure ProjectContext where
  hasTypeScript : Bool := false
  hasReact : Bool := false
  packageManager : Str := []
deriving DecidableEq

/-- The TypeScript context clause, guarded by a substring check. -/
def tsClause (basePrompt : Str) (context : ProjectContext) : List Str :=
  if context.hasTypeScript = true ∧ containsS basePrompt (str "TypeScript") = false then
    [str "Use TypeScript"]
  else []

/-- The React context clause, guarded by a substring check. -/
def reactClause (basePrompt : Str) (context : ProjectContext) : List Str :=
  if context.hasReact = true ∧ containsS basePrompt (str "React") = false then
    [str "Follow React patterns"]
  else []

/-- The package-manager context clause (no substring check in the
source). -/
def pmClause (context : ProjectContext) : List Str :=
  if context.packageManager ≠ [] ∧ context.packageManager ≠ str "npm" then
    [str "Use " ++ context.packageManager]
  else []

/-- The `optimizations` array of `optimizePrompt`, in push order. -/
def ctxOptimizations (basePrompt : Str) (context : ProjectContext) : List Str :=
  tsClause basePrompt context ++ reactClause basePrompt context ++ pmClause context

/-- The `tokenSavers` array of `optimizePrompt`, in push order. -/
def tokenSavers (options : List (Str × Str)) : List Str :=
  (if lookupD options (str "outputFormat") = str "code" then
    [str "Code only, no explanations, no markdown"]
  else if lookupD options (str "outputFormat") = str "commented" then
    [str "Minimal inline comments only"]
  else if lookupD options (str "outputFormat") = str "guided" then
    [str "Brief setup steps, no verbose explanations"]
  else []) ++
  (if lookupD options (str "complexity") = str "simple" then
    [str "Essential features only"]
  else if lookupD options (str "complexity") = str "medium" then
    [str "Standard implementation, no edge case handling"]
  else [])

/-- `optimizePrompt(basePrompt, options, context)`. -/
def optimizePrompt (basePrompt : Str) (options : List (Str × Str))
    (context : ProjectContext) : Str :=
  basePrompt ++
  (if ctxOptimizations basePrompt context ≠ [] then
    str ". Context: " ++ joinSep (str ", ") (ctxOptimizations basePrompt context)
  else []) ++
  (if tokenSavers options ≠ [] then
    str ". Output: " ++ joinSep (str ", ") (tokenSavers options)
  else [])

/-- The record returned by `analyzeTokenEfficiency`. -/
structure EfficiencyAnalysis where
  estimatedTokens : Nat
  efficiency : Str
  recommendations : List Str
deriving DecidableEq

/-- `analyzeTokenEfficiency(prompt)`; `Math.ceil(length / 4)` on a
natural length is `(length + 3) / 4` (see `ceil_quarter`), and
`prompt.split(',').length` is the comma count plus one. -/
def analyzeTokenEfficiency (prompt : Str) : EfficiencyAnalysis :=
  let estimatedTokens := (prompt.length + 3) / 4
  { estimatedTokens := estimatedTokens
    efficiency :=
      if estimatedTokens < 120 then str "excellent"
      else if estimatedTokens < 220 then str "good"
      else if estimatedTokens < 320 then str "fair"
      else str "verbose"
    recommendations :=
      (if estimatedTokens > 200 then [str "Consider more specific constraints"] else []) ++
      (if containsS prompt (str "comprehensive") = true ∨
          containsS prompt (str "detailed") = true then
        [str "Remove verbose qualifiers"]
      else []) ++
      (if prompt.count ',' + 1 > 5 then [str "Simplify constraint list"] else []) }

/-- The `hints` table of `getFrameworkHints`. -/
def frameworkHintsT : List (Str × Str) :=
  [(str "react", str "Use React 18+ hooks, proper dependency arrays, and modern patterns"),
   (str "vue", str "Use Vue 3 Composition API, reactive refs, and TypeScript"),
   (str "angular", str "Use Angular 15+ standalone components and signals"),
   (str "svelte", str "Use SvelteKit patterns and stores"),
   (str "next", str "Use Next.js 14+ App Router and Server Components"),
   (str "express", str "Use async/await, proper middleware, and error handling"),
   (str "fastify", str "Use Fastify plugins and schemas for validation"),
   (str "nest", str "Use NestJS decorators, guards, and dependency injection")]

/-- `getFrameworkHints(framework)`. -/
def getFrameworkHints (framework : Str) : Str :=
  (lookupA frameworkHintsT framework).getD (str "Use modern JavaScript/TypeScript patterns")

/-- The `hints` table of `getTypeHints`. -/
def typeHintsT : List (Str × Str) :=
  [(str "init", str "Include project structure, configuration files, and setup instructions"),
   (str "feature", str "Focus on modularity, testability, and integration with existing code"),
   (str "architecture", str "Emphasize scalability, maintainability, and design patterns"),
   (str "testing", str "Include test data setup, mocking strategies, and coverage reports"),
   (str "docs", str "Use clear examples, API references, and troubleshooting guides"),
   (str "fix", str "Include root cause analysis, prevention strategies, and monitoring")]

/-- `getTypeHints(type)`. -/
def getTypeHints (type : Str) : Str :=
  (lookupA typeHintsT type).getD (str "Focus on code quality and maintainability")

/-- One entry of the `generatePromptVariations` result. -/
structure Variation where
  name : Str
  prompt : Str
  description : Str
  category : Str
  tokens : Nat
deriving DecidableEq

/-- `cleanBasePrompt.split('.')[0]`: the text before the first dot. -/
def takeUntilDot (s : Str) : Str := s.takeWhile fun c => c ≠ '.'

/-- `generatePromptVariations(basePrompt, options)`. -/
def generatePromptVariations (basePrompt : Str) (options : List (Str × Str)) :
    List Variation :=
  let cleanBasePrompt := replaceFirst basePrompt PB.clarify []
  let coreAction := takeUntilDot cleanBasePrompt
  let frameworkHints := getFrameworkHints (lookupD options (str "framework"))
  let typeHints := getTypeHints (lookupD options (str "type"))
  [{ name := str "Ultra Minimal"
     prompt := coreAction ++ str ". Code only, no explanations, no markdown formatting."
     description := str "Absolute minimum tokens for quick prototyping (~8-12 tokens)"
     category := str "speed"
     tokens := (coreAction.length + 35 + 3) / 4 },
   { name := str "Production Ready"
     prompt := coreAction ++
       str ". Include: error handling, TypeScript types, comprehensive tests, clear documentation, and industry best practices. " ++
       frameworkHints ++
       str ". Follow SOLID principles and add security considerations. Ask user to clarify if necessary."
     description := str "Enterprise-grade implementation with full coverage (~45-60 tokens)"
     category := str "quality"
     tokens := (coreAction.length + frameworkHints.length + 180 + 3) / 4 },
   { name := str "Learning Focused"
     prompt := coreAction ++
       str ". Provide: step-by-step explanation, inline comments explaining each concept, multiple implementation approaches, common pitfalls to avoid, and links to relevant documentation. " ++
       typeHints ++
       str ". Make it educational and beginner-friendly. Ask user to clarify if necessary."
     description := str "Educational with explanations and alternatives (~55-70 tokens)"
     category := str "educational"
     tokens := (coreAction.length + typeHints.length + 220 + 3) / 4 },
   { name := str "Constraint Heavy"
     prompt := cleanBasePrompt ++
       str ". Strict requirements: zero external dependencies, maximum 50 lines total, pure functions only, comprehensive error handling with custom error classes, extensive inline documentation, cross-platform compatibility, memory optimization, and performance benchmarks included. Follow functional programming paradigms exclusively. Ask user to clarify if necessary."
     description := str "Maximum constraints and technical requirements (~75-95 tokens)"
     category := str "constrained"
     tokens := (cleanBasePrompt.length + 280 + 3) / 4 }]

end PO

/-! ## Specification-side reference definitions

These two definitions follow the specification text (not the source) and
are used to state the refinement claims of the efficiency analyzer. -/

/-- Modelled from the spec: `estimatedTokens = ceil(length(prompt) / 4)`
as an exact rational ceiling. -/
def specEstimatedTokens (prompt : Str) : Nat := ⌈(prompt.length : ℚ) / 4⌉₊

/-- Modelled from the spec: the efficiency bucket thresholds, strict
less-than comparisons evaluated in increasing order. -/
def specEfficiency (n : Nat) : Str :=
  if n < 120 then str "excellent"
  else if n < 220 then str "good"
  else if n < 320 then str "fair"
  else str "verbose"

/-- For naturals, the rational ceiling of `n / 4` is `(n + 3) / 4`. -/
theorem ceil_quarter (n : Nat) : ⌈(n : ℚ) / 4⌉₊ = (n + 3) / 4 := by
  apply le_antisymm
  · rw [Nat.ceil_le, div_le_iff₀ (by norm_num : (0 : ℚ) < 4)]
    have h : (n : ℚ) ≤ ((n + 3) / 4 : ℕ) * 4 := by
      have h2 : n ≤ (n + 3) / 4 * 4 := by omega
      exact_mod_cast h2
    exact h
  · have h := Nat.le_ceil ((n : ℚ) / 4)
    set m := ⌈(n : ℚ) / 4⌉₊ with hm
    rw [div_le_iff₀ (by norm_num : (0 : ℚ) < 4)] at h
    have hn : n ≤ m * 4 := by exact_mod_cast h
    omega

/-! ## Properties of the collected constraint clauses -/

section ClauseLemmas

theorem dictClause_mem {dict : List (Str × Str)} {v c : Str}
    (h : c ∈ PB.dictClause dict v) :
    (∃ kv ∈ dict, c = kv.2) ∨ (v ∈ PB.protoKeys ∧ c = PB.protoVal v) := by
  unfold PB.dictClause at h
  split at h
  · split at h
    · rename_i w hw
      simp only [List.mem_singleton] at h
      exact Or.inl ⟨(v, w), lookupA_mem hw, by simp [h]⟩
    · split at h
      · rename_i hvp
        simp only [List.mem_singleton] at h
        exact Or.inr ⟨hvp, h⟩
      · simp at h
  · simp at h

theorem dictClauseWith_mem {pre : Str} {dict : List (Str × Str)} {v c : Str}
    (h : c ∈ PB.dictClauseWith pre dict v) :
    (∃ kv ∈ dict, c = pre ++ kv.2) ∨ (v ∈ PB.protoKeys ∧ c = pre ++ PB.protoVal v) := by
  unfold PB.dictClauseWith at h
  simp only [List.mem_map] at h
  rcases h with ⟨d, hd, rfl⟩
  rcases dictClause_mem hd with ⟨kv, hkv, rfl⟩ | ⟨hvp, rfl⟩
  · exact Or.inl ⟨kv, hkv, rfl⟩
  · exact Or.inr ⟨hvp, rfl⟩

theorem protoVal_facts : ∀ w ∈ PB.protoKeys,
    PB.protoVal w ≠ [] ∧ (':' : Char) ∉ PB.protoVal w := by decide

theorem testingLibraryName_nmem {o : List (Str × Str)} {c : Char}
    (hv : ∀ kv ∈ o, c ∉ kv.2) : c ∉ PB.testingLibraryName o := by
  unfold PB.testingLibraryName
  split
  · rcases lookupD_cases o (str "customLibrary") with h | h
    · rw [h]; simp
    · exact hv _ h
  · rcases lookupD_cases o (str "library") with h | h
    · rw [h]; simp
    · exact hv _ h

theorem lookupD_nmem {o : List (Str × Str)} {c : Char} (k : Str)
    (hv : ∀ kv ∈ o, c ∉ kv.2) : c ∉ lookupD o k := by
  rcases lookupD_cases o k with h | h
  · rw [h]; simp
  · exact hv _ h

theorem lookupD_clean {o : List (Str × Str)} (k : Str)
    (hv : ∀ kv ∈ o, PB.clean kv.2) : PB.clean (lookupD o k) := by
  rcases lookupD_cases o k with h | h
  · rw [h]
    exact ⟨by simp, by simp, by decide, by decide⟩
  · exact hv _ h

theorem testingLibraryName_clean {o : List (Str × Str)}
    (hv : ∀ kv ∈ o, PB.clean kv.2) : PB.clean (PB.testingLibraryName o) := by
  unfold PB.testingLibraryName
  split
  · exact lookupD_clean _ hv
  · exact lookupD_clean _ hv

/-- Every constraint clause the Node builder can collect is nonempty,
and contains no brace character as long as every option value is clean
(brace-free, dollar-free and clear of the `Object.prototype` names, so
that no dictionary lookup hits the prototype chain). -/
theorem promptConstraints_spec : ∀ {type : Str} {o : List (Str × Str)} {c : Str},
    c ∈ PB.promptConstraints type o →
    c ≠ [] ∧ ((∀ kv ∈ o, PB.clean kv.2) → lb ∉ c) := by
  intro type o c h
  unfold PB.promptConstraints at h
  simp only [List.mem_append] at h
  rcases h with (h | h) | h
  · -- init framework clause
    split at h
    · rcases dictClause_mem h with ⟨kv, hkv, rfl⟩ | ⟨hvp, rfl⟩
      · exact ⟨(by decide : ∀ kv ∈ PB.initFrameworks, kv.2 ≠ []) _ hkv,
          fun _ => (by decide : ∀ kv ∈ PB.initFrameworks, lb ∉ kv.2) _ hkv⟩
      · exact ⟨(protoVal_facts _ hvp).1,
          fun hcl => ((lookupD_clean _ hcl).2.2.1 hvp).elim⟩
    · simp at h
  · -- generic constraints
    unfold PB.genericConstraints at h
    simp only [List.mem_append] at h
    rcases h with (((h | h) | h) | h) | h
    · rcases dictClause_mem h with ⟨kv, hkv, rfl⟩ | ⟨hvp, rfl⟩
      · exact ⟨(by decide : ∀ kv ∈ PB.outputFormats, kv.2 ≠ []) _ hkv,
          fun _ => (by decide : ∀ kv ∈ PB.outputFormats, lb ∉ kv.2) _ hkv⟩
      · exact ⟨(protoVal_facts _ hvp).1,
          fun hcl => ((lookupD_clean _ hcl).2.2.1 hvp).elim⟩
    · rcases dictClause_mem h with ⟨kv, hkv, rfl⟩ | ⟨hvp, rfl⟩
      · exact ⟨(by decide : ∀ kv ∈ PB.complexityLevels, kv.2 ≠ []) _ hkv,
          fun _ => (by decide : ∀ kv ∈ PB.complexityLevels, lb ∉ kv.2) _ hkv⟩
      · exact ⟨(protoVal_facts _ hvp).1,
          fun hcl => ((lookupD_clean _ hcl).2.2.1 hvp).elim⟩
    · rcases dictClause_mem h with ⟨kv, hkv, rfl⟩ | ⟨hvp, rfl⟩
      · exact ⟨(by decide : ∀ kv ∈ PB.codeStyles, kv.2 ≠ []) _ hkv,
          fun _ => (by decide : ∀ kv ∈ PB.codeStyles, lb ∉ kv.2) _ hkv⟩
      · exact ⟨(protoVal_facts _ hvp).1,
          fun hcl => ((lookupD_clean _ hcl).2.2.1 hvp).elim⟩
    · rcases dictClause_mem h with ⟨kv, hkv, rfl⟩ | ⟨hvp, rfl⟩
      · exact ⟨(by decide : ∀ kv ∈ PB.fileStructures, kv.2 ≠ []) _ hkv,
          fun _ => (by decide : ∀ kv ∈ PB.fileStructures, lb ∉ kv.2) _ hkv⟩
      · exact ⟨(protoVal_facts _ hvp).1,
          fun hcl => ((lookupD_clean _ hcl).2.2.1 hvp).elim⟩
    · rcases dictClause_mem h with ⟨kv, hkv, rfl⟩ | ⟨hvp, rfl⟩
      · exact ⟨(by decide : ∀ kv ∈ PB.depPrefs, kv.2 ≠ []) _ hkv,
          fun _ => (by decide : ∀ kv ∈ PB.depPrefs, lb ∉ kv.2) _ hkv⟩
      · exact ⟨(protoVal_facts _ hvp).1,
          fun hcl => ((lookupD_clean _ hcl).2.2.1 hvp).elim⟩
  · -- type-specific constraints
    split at h
    · -- init
      unfold PB.initConstraints at h
      rcases List.mem_append.mp h with h2 | h2
      · split at h2
        · split at h2
          · simp only [List.mem_singleton] at h2
            subst h2
            exact ⟨by decide, fun _ => by decide⟩
          · simp only [List.mem_singleton] at h2
            subst h2
            refine ⟨by simp [str], fun hcl => ?_⟩
            intro hlb
            simp only [List.mem_append] at hlb
            rcases hlb with (hlb | hlb) | hlb
            · revert hlb; decide
            · exact lookupD_nmem _ (fun kv hk => (hcl kv hk).1) hlb
            · revert hlb; decide
        · simp at h2
      · rcases dictClause_mem h2 with ⟨kv, hkv, rfl⟩ | ⟨hvp, rfl⟩
        · exact ⟨(by decide : ∀ kv ∈ PB.initStructure, kv.2 ≠ []) _ hkv,
            fun _ => (by decide : ∀ kv ∈ PB.initStructure, lb ∉ kv.2) _ hkv⟩
        · exact ⟨(protoVal_facts _ hvp).1,
            fun hcl => ((lookupD_clean _ hcl).2.2.1 hvp).elim⟩
    · split at h
      · -- feature
        rcases dictClauseWith_mem h with ⟨kv, hkv, rfl⟩ | ⟨hvp, rfl⟩
        · refine ⟨by simp [str], fun _ => ?_⟩
          intro hlb
          rcases List.mem_append.mp hlb with hlb | hlb
          · revert hlb; decide
          · exact (by decide : ∀ kv ∈ PB.featureScope, lb ∉ kv.2) _ hkv hlb
        · exact ⟨by simp [str],
            fun hcl => ((lookupD_clean _ hcl).2.2.1 hvp).elim⟩
      · split at h
        · -- testing
          unfold PB.testingConstraints at h
          rcases List.mem_append.mp h with h2 | h2
          · split at h2
            · split at h2
              · rename_i w hw
                simp only [List.mem_singleton] at h2
                subst h2
                have hmem := lookupA_mem hw
                exact ⟨(by decide : ∀ kv ∈ PB.testingLibraries, kv.2 ≠ []) _ hmem,
                  fun _ => (by decide : ∀ kv ∈ PB.testingLibraries, lb ∉ kv.2) _ hmem⟩
              · split at h2
                · rename_i hplib
                  simp only [List.mem_singleton] at h2
                  subst h2
                  exact ⟨(protoVal_facts _ hplib).1,
                    fun hcl => ((testingLibraryName_clean hcl).2.2.2 hplib).elim⟩
                · simp only [List.mem_singleton] at h2
                  subst h2
                  refine ⟨by simp [str], fun hcl => ?_⟩
                  intro hlb
                  rcases List.mem_append.mp hlb with hlb | hlb
                  · revert hlb; decide
                  · exact testingLibraryName_nmem (fun kv hk => (hcl kv hk).1) hlb
            · simp at h2
          · split at h2
            · simp only [List.mem_singleton] at h2
              subst h2
              refine ⟨by simp [str], fun hcl => ?_⟩
              intro hlb
              simp only [List.mem_append] at hlb
              rcases hlb with (hlb | hlb) | hlb
              · revert hlb; decide
              · exact lookupD_nmem _ (fun kv hk => (hcl kv hk).1) hlb
              · revert hlb; decide
            · simp at h2
        · split at h
          · -- docs
            unfold PB.docsConstraints at h
            simp only [List.mem_append] at h
            rcases h with (((h | h) | h) | h) | h
            · rcases dictClause_mem h with ⟨kv, hkv, rfl⟩ | ⟨hvp, rfl⟩
              · exact ⟨(by decide : ∀ kv ∈ PB.formatSpecs, kv.2 ≠ []) _ hkv,
                  fun _ => (by decide : ∀ kv ∈ PB.formatSpecs, lb ∉ kv.2) _ hkv⟩
              · exact ⟨(protoVal_facts _ hvp).1,
                  fun hcl => ((lookupD_clean _ hcl).2.2.1 hvp).elim⟩
            · rcases dictClause_mem h with ⟨kv, hkv, rfl⟩ | ⟨hvp, rfl⟩
              · exact ⟨(by decide : ∀ kv ∈ PB.detailLevels, kv.2 ≠ []) _ hkv,
                  fun _ => (by decide : ∀ kv ∈ PB.detailLevels, lb ∉ kv.2) _ hkv⟩
              · exact ⟨(protoVal_facts _ hvp).1,
                  fun hcl => ((lookupD_clean _ hcl).2.2.1 hvp).elim⟩
            · unfold PB.docsDiagramClause at h
              split at h
              · simp only [List.mem_singleton] at h
                subst h
                refine ⟨by simp [str], fun hcl => ?_⟩
                intro hlb
                simp only [List.mem_append] at hlb
                rcases hlb with (((hlb | hlb) | hlb) | hlb) | hlb
                · revert hlb; decide
                · refine absurd hlb (joinSep_nmem (by decide) ?_)
                  intro x hx
                  simp only [List.mem_map] at hx
                  rcases hx with ⟨t, ht, rfl⟩
                  have htc : PB.clean t := by
                    split at ht
                    · simp only [List.mem_singleton] at ht
                      subst ht
                      exact lookupD_clean _ hcl
                    · simp only [List.mem_cons, List.not_mem_nil, or_false] at ht
                      rcases ht with rfl | rfl
                      · exact ⟨by decide, by decide, by decide, by decide⟩
                      · exact ⟨by decide, by decide, by decide, by decide⟩
                  split
                  · rename_i w hw
                    exact (by decide : ∀ kv ∈ PB.diagramTypeNames, lb ∉ kv.2) _
                      (lookupA_mem hw)
                  · split
                    · rename_i hpt
                      exact (htc.2.2.1 hpt).elim
                    · exact htc.1
                · revert hlb; decide
                · split at hlb
                  · exact lookupD_nmem _ (fun kv hk => (hcl kv hk).1) hlb
                  · split at hlb
                    · exact lookupD_nmem _ (fun kv hk => (hcl kv hk).1) hlb
                    · revert hlb; decide
                · revert hlb; decide
              · simp at h
            · split at h
              · simp only [List.mem_singleton] at h
                subst h
                exact ⟨by decide, fun _ => by decide⟩
              · simp at h
            · split at h
              · simp only [List.mem_singleton] at h
                subst h
                exact ⟨by decide, fun _ => by decide⟩
              · simp at h
          · split at h
            · -- fix
              unfold PB.fixConstraints at h
              simp only [List.mem_append] at h
              rcases h with (h | h) | h
              · rcases dictClauseWith_mem h with ⟨kv, hkv, rfl⟩ | ⟨hvp, rfl⟩
                · refine ⟨by simp [str], fun _ => ?_⟩
                  intro hlb
                  rcases List.mem_append.mp hlb with hlb | hlb
                  · revert hlb; decide
                  · exact (by decide : ∀ kv ∈ PB.fixPriorities, lb ∉ kv.2) _ hkv hlb
                · exact ⟨by simp [str],
                    fun hcl => ((lookupD_clean _ hcl).2.2.1 hvp).elim⟩
              · split at h
                · simp only [List.mem_singleton] at h
                  subst h
                  refine ⟨by simp [str], fun hcl => ?_⟩
                  intro hlb
                  simp only [List.mem_append] at hlb
                  rcases hlb with (hlb | hlb) | hlb
                  · revert hlb; decide
                  · exact lookupD_nmem _ (fun kv hk => (hcl kv hk).1) hlb
                  · revert hlb; decide
                · simp at h
              · rcases dictClauseWith_mem h with ⟨kv, hkv, rfl⟩ | ⟨hvp, rfl⟩
                · refine ⟨by simp [str], fun _ => ?_⟩
                  intro hlb
                  rcases List.mem_append.mp hlb with hlb | hlb
                  · revert hlb; decide
                  · exact (by decide : ∀ kv ∈ PB.fixCategories, lb ∉ kv.2) _ hkv hlb
                · exact ⟨by simp [str],
                    fun hcl => ((lookupD_clean _ hcl).2.2.1 hvp).elim⟩
            · simp at h

end ClauseLemmas


/-! ## Preservation lemmas for the prompt core -/

section CoreLemmas

theorem substKeys_cons {k v : Str} {tl : List (Str × Str)} {tmpl : Str} :
    PB.substKeys ((k, v) :: tl) tmpl =
      PB.substKeys tl (replaceFirst tmpl (phKey k) (PB.substVal v)) := rfl

theorem substVal_nmem {c : Char} {v : Str} (hd : c ∉ str "default") (hv : c ∉ v) :
    c ∉ PB.substVal v := by
  unfold PB.substVal
  split
  · exact hd
  · exact hv

theorem substKeys_nmem {c : Char} (hd : c ∉ str "default") :
    ∀ {o : List (Str × Str)} {tmpl : Str}, c ∉ tmpl → (∀ kv ∈ o, c ∉ kv.2) →
      c ∉ PB.substKeys o tmpl := by
  intro o
  induction o with
  | nil => intro tmpl ht _; exact ht
  | cons kv tl ih =>
    intro tmpl ht hv
    rcases kv with ⟨k, v⟩
    rw [substKeys_cons]
    refine ih ?_ fun kv2 hkv2 => hv kv2 (List.mem_cons_of_mem _ hkv2)
    intro hm
    rcases mem_replaceFirst hm with hm | hm
    · exact ht hm
    · exact substVal_nmem hd (hv (k, v) (by simp)) hm

theorem protoReplacerResult_nmem {c : Char} {w key : Str}
    (h1 : c ∉ str "[object Object]") (h2 : c ∉ str "[object global]")
    (h3 : c ∉ str "undefined") (h4 : c ∉ str "false") (h5 : c ∉ phKey key) :
    c ∉ PB.protoReplacerResult w key := by
  unfold PB.protoReplacerResult
  split
  · exact h1
  · split
    · exact h5
    · split
      · exact h2
      · split
        · exact h3
        · exact h4

theorem dictSubst_some_nmem {c : Char} {dict : List (Str × Str)} {key v p q : Str}
    (hq : PB.dictSubst dict key v p = some q) (hp : c ∉ p)
    (hdict : ∀ kv ∈ dict, c ∉ kv.2)
    (hrep : ∀ w, c ∉ PB.protoReplacerResult w key) : c ∉ q := by
  unfold PB.dictSubst at hq
  split at hq
  · split at hq
    · rename_i w hw
      injection hq with hq
      subst hq
      intro hm
      rcases mem_replaceFirst hm with hm | hm
      · exact hp hm
      · exact hdict _ (lookupA_mem hw) hm
    · split at hq
      · split at hq
        · simp at hq
        · injection hq with hq
          subst hq
          intro hm
          rcases mem_replaceFirst hm with hm | hm
          · exact hp hm
          · exact hrep _ hm
      · injection hq with hq
        subst hq
        exact hp
  · injection hq with hq
    subst hq
    exact hp

theorem mutateOptions_vals {P : Str → Prop} {o : List (Str × Str)}
    (hv : ∀ kv ∈ o, P kv.2) (hnil : P []) : ∀ kv ∈ PB.mutateOptions o, P kv.2 := by
  unfold PB.mutateOptions
  split
  · intro kv hkv
    rcases updateA_mem hkv with h | h
    · exact hv _ h
    · rw [h]
      rcases lookupD_cases o (str "customFramework") with h2 | h2
      · rw [h2]
        exact hnil
      · exact hv _ h2
  · exact hv

/-- A successful prompt core of a known task type contains no colon as
long as no option value does (templates, dictionary phrases, `default`
and the prototype-chain insertions are all colon-free). -/
theorem promptCore_colon_nmem {type : Str} (ht : type ∈ PB.knownTypes)
    {o : List (Str × Str)} (hv : ∀ kv ∈ o, (':' : Char) ∉ kv.2)
    {core : Str} (hc : PB.promptCore type o = some core) : (':' : Char) ∉ core := by
  have hd : (':' : Char) ∉ str "default" := by decide
  simp only [PB.knownTypes, List.mem_cons, List.not_mem_nil, or_false] at ht
  rcases ht with rfl | rfl | rfl | rfl | rfl | rfl
  · have e0 : PB.promptCore (str "init") o =
        some (if lookupD o (str "projectName") ≠ [] ∧
            hasNonWs (lookupD o (str "projectName")) then
          PB.substKeys o PB.initWithProjectName
        else PB.substKeys o PB.initBase) := rfl
    rw [e0] at hc
    injection hc with hc
    subst hc
    split
    · exact substKeys_nmem hd (by decide) hv
    · exact substKeys_nmem hd (by decide) hv
  · exact dictSubst_some_nmem hc (substKeys_nmem hd (by decide) hv)
      (by decide : ∀ kv ∈ PB.featurePatterns, (':' : Char) ∉ kv.2)
      (fun w => protoReplacerResult_nmem (by decide) (by decide) (by decide) (by decide)
        (by decide))
  · exact dictSubst_some_nmem hc (substKeys_nmem hd (by decide) hv)
      (by decide : ∀ kv ∈ PB.architecturePatterns, (':' : Char) ∉ kv.2)
      (fun w => protoReplacerResult_nmem (by decide) (by decide) (by decide) (by decide)
        (by decide))
  · exact dictSubst_some_nmem hc (substKeys_nmem hd (by decide) hv)
      (by decide : ∀ kv ∈ PB.testingTypes, (':' : Char) ∉ kv.2)
      (fun w => protoReplacerResult_nmem (by decide) (by decide) (by decide) (by decide)
        (by decide))
  · exact dictSubst_some_nmem hc (substKeys_nmem hd (by decide) hv)
      (by decide : ∀ kv ∈ PB.docsTypes, (':' : Char) ∉ kv.2)
      (fun w => protoReplacerResult_nmem (by decide) (by decide) (by decide) (by decide)
        (by decide))
  · exact dictSubst_some_nmem hc (substKeys_nmem hd (by decide) hv)
      (by decide : ∀ kv ∈ PB.fixApproaches, (':' : Char) ∉ kv.2)
      (fun w => protoReplacerResult_nmem (by decide) (by decide) (by decide) (by decide)
        (by decide))

end CoreLemmas

/-! ## Claim theorems -/

/-- Claim C9, counterexample: for the unknown tag `nonsense` the call
returns the sentinel `Unknown prompt type.` - not the literal
`unknown type` stated by the claim - while a tag inherited from
`Object.prototype` (here `toString`) is not rejected at all: with no
options the call returns `undefined Ask user to clarify if necessary.`
(the `undefined` template base coerced into the final concatenation), and
with any option present the generic pass calls `replace` on `undefined`
and throws. -/
theorem C9_counterexample :
    PB.buildPrompt (str "nonsense") [] = some (str "Unknown prompt type.") ∧
    str "Unknown prompt type." ≠ str "unknown type" ∧
    PB.buildPrompt (str "toString") [] = some (str "undefined" ++ PB.clarify) ∧
    PB.buildPrompt (str "toString") [(str "framework", str "react")] = none := by
  refine ⟨by decide, by decide, by decide, by decide⟩

/-- Claim C9, amended: for every task type tag that is neither one of the
six known tags nor a name inherited from `Object.prototype`, `buildPrompt`
returns the fixed sentinel string `Unknown prompt type.` (a normal
return, not an exception) and leaves the caller's options unchanged. -/
theorem C9_unknown_type_sentinel (type : Str) (options : List (Str × Str))
    (h1 : type ∉ PB.knownTypes) (h2 : type ∉ PB.protoKeys) :
    PB.buildPrompt type options = some (str "Unknown prompt type.") ∧
    (PB.buildPromptS type options).2 = options := by
  unfold PB.buildPrompt PB.buildPromptS
  rw [if_neg h1, if_neg h2]
  exact ⟨rfl, rfl⟩

/-- Claim C9, witness at a concrete unknown tag. -/
theorem C9_unknown_type_sentinel_witness :
    PB.buildPrompt (str "bogus") [(str "framework", str "react")] =
      some (str "Unknown prompt type.") ∧
    (PB.buildPromptS (str "bogus") [(str "framework", str "react")]).2 =
      [(str "framework", str "react")] :=
  C9_unknown_type_sentinel (str "bogus") [(str "framework", str "react")]
    (by decide) (by decide)

/-- Claim C3, code bug: with `pattern = 'function'` supplied, the feature
dictionary phrase never reaches the output.  The generic pass has already
consumed the placeholder with the raw tag, so the switch-case rewrite
targeting the placeholder is dead code, and the builders return the raw
`function` instead of the prose `pure functions with TypeScript`
(`pure functions` in the web dictionary).  The web builder exhibits the
same behaviour; its explicit skip rule for `docType` is the workaround
the source applies to the one dictionary that does land. -/
theorem C3_dictionary_rewrite_dead :
    PB.buildPrompt (str "feature")
        [(str "feature", str "auth"), (str "pattern", str "function")] =
      some (str "Implement auth as function" ++ PB.clarify) ∧
    ¬ (str "pure functions with TypeScript" <:+:
        (PB.buildPrompt (str "feature")
          [(str "feature", str "auth"), (str "pattern", str "function")]).getD []) ∧
    (WB.buildPromptW (str "feature")
        [(str "feature", str "auth"), (str "pattern", str "function")]).isSome = true ∧
    ¬ (str "pure functions" <:+:
        (WB.buildPromptW (str "feature")
          [(str "feature", str "auth"), (str "pattern", str "function")]).getD []) := by
  refine ⟨by decide, by decide, by decide, by decide⟩

/-- Claim C4: `analyzeTokenEfficiency` realises exactly the spec's
`ceil(length/4)` token estimate and its strict-threshold bucketing; a
480-character prompt is rated 120 tokens and `good`; the empty prompt is
rated 0 tokens, `excellent`, with no recommendations. -/
theorem C4_analyze_matches_spec (p : Str) :
    (PO.analyzeTokenEfficiency p).estimatedTokens = specEstimatedTokens p ∧
    (PO.analyzeTokenEfficiency p).efficiency =
      specEfficiency (PO.analyzeTokenEfficiency p).estimatedTokens ∧
    (p.length = 480 →
      (PO.analyzeTokenEfficiency p).estimatedTokens = 120 ∧
      (PO.analyzeTokenEfficiency p).efficiency = str "good") ∧
    (p = [] → PO.analyzeTokenEfficiency p = ⟨0, str "excellent", []⟩) := by
  refine ⟨?_, rfl, ?_, ?_⟩
  · rw [specEstimatedTokens, ceil_quarter]
    rfl
  · intro h
    constructor
    · show (p.length + 3) / 4 = 120
      rw [h]
    · show specEfficiency ((p.length + 3) / 4) = str "good"
      rw [h]
      decide
  · intro h
    subst h
    decide

/-- Claim C4, witness: the 480-character prompt and the empty prompt. -/
theorem C4_analyze_matches_spec_witness :
    (PO.analyzeTokenEfficiency (List.replicate 480 'a')).estimatedTokens = 120 ∧
    (PO.analyzeTokenEfficiency (List.replicate 480 'a')).efficiency = str "good" ∧
    PO.analyzeTokenEfficiency [] = ⟨0, str "excellent", []⟩ := by
  refine ⟨?_, ?_, ?_⟩
  · exact ((C4_analyze_matches_spec (List.replicate 480 'a')).2.2.1
      (List.length_replicate 480 'a')).1
  · exact ((C4_analyze_matches_spec (List.replicate 480 'a')).2.2.1
      (List.length_replicate 480 'a')).2
  · exact (C4_analyze_matches_spec []).2.2.2 rfl

/-- Claim C6, counterexample: `pnpm` occurs verbatim in the base prompt,
yet `optimizePrompt` appends the `Use pnpm` directive again - the
package-manager clause has no substring guard. -/
theorem C6_counterexample :
    (str "pnpm" <:+: str "Use pnpm") ∧
    PO.optimizePrompt (str "Use pnpm") [] ⟨false, false, str "pnpm"⟩ =
      str "Use pnpm. Context: Use pnpm" := by
  constructor <;> decide

/-- Claim C6, amended: only the TypeScript and React facts are guarded by
the naive substring check; the package-manager clause is pushed whenever
the detected manager is truthy and differs from `npm`, whether or not its
name already occurs in the base prompt. -/
theorem C6_context_guards (base : Str) (ctx : PO.ProjectContext) :
    ((str "TypeScript" <:+: base) → PO.tsClause base ctx = []) ∧
    ((str "React" <:+: base) → PO.reactClause base ctx = []) ∧
    (ctx.packageManager ≠ [] → ctx.packageManager ≠ str "npm" →
      PO.pmClause ctx = [str "Use " ++ ctx.packageManager]) := by
  refine ⟨?_, ?_, ?_⟩
  · intro h
    rw [← containsS_iff] at h
    unfold PO.tsClause
    rw [if_neg]
    rintro ⟨-, hc⟩
    rw [h] at hc
    simp at hc
  · intro h
    rw [← containsS_iff] at h
    unfold PO.reactClause
    rw [if_neg]
    rintro ⟨-, hc⟩
    rw [h] at hc
    simp at hc
  · intro h1 h2
    unfold PO.pmClause
    rw [if_pos ⟨h1, h2⟩]

/-- Claim C6, witness: a base prompt already containing `TypeScript`
suppresses the TypeScript clause, while `pnpm` is pushed regardless. -/
theorem C6_context_guards_witness :
    PO.tsClause (str "Use TypeScript now") ⟨true, false, str "pnpm"⟩ = [] ∧
    PO.pmClause ⟨true, false, str "pnpm"⟩ = [str "Use pnpm"] := by
  constructor
  · exact (C6_context_guards (str "Use TypeScript now") ⟨true, false, str "pnpm"⟩).1 (by decide)
  · exact (C6_context_guards (str "x") ⟨true, false, str "pnpm"⟩).2.2 (by decide) (by decide)

/-- Claim C8: `generatePromptVariations` always returns exactly four
variations, named Ultra Minimal, Production Ready, Learning Focused,
Constraint Heavy in that order, and is deterministic (a pure function of
its arguments). -/
theorem C8_variations_fixed (base : Str) (options : List (Str × Str)) :
    (PO.generatePromptVariations base options).length = 4 ∧
    (PO.generatePromptVariations base options).map PO.Variation.name =
      [str "Ultra Minimal", str "Production Ready", str "Learning Focused",
       str "Constraint Heavy"] ∧
    PO.generatePromptVariations base options = PO.generatePromptVariations base options :=
  ⟨rfl, rfl, rfl⟩

/-- Claim C10: when no context fact contributes (no TypeScript, no React,
manager absent or `npm`) and no token-saver option matches (output format
not code/commented/guided, complexity neither simple nor medium),
`optimizePrompt` returns its base prompt unchanged. -/
theorem C10_optimize_identity (base : Str) (options : List (Str × Str))
    (ctx : PO.ProjectContext)
    (h1 : ctx.hasTypeScript = false) (h2 : ctx.hasReact = false)
    (h3 : ctx.packageManager = [] ∨ ctx.packageManager = str "npm")
    (h4 : lookupD options (str "outputFormat") ≠ str "code")
    (h5 : lookupD options (str "outputFormat") ≠ str "commented")
    (h6 : lookupD options (str "outputFormat") ≠ str "guided")
    (h7 : lookupD options (str "complexity") ≠ str "simple")
    (h8 : lookupD options (str "complexity") ≠ str "medium") :
    PO.optimizePrompt base options ctx = base := by
  have hc : PO.ctxOptimizations base ctx = [] := by
    unfold PO.ctxOptimizations PO.tsClause PO.reactClause PO.pmClause
    rw [if_neg (by rintro ⟨hx, -⟩; rw [h1] at hx; simp at hx),
      if_neg (by rintro ⟨hx, -⟩; rw [h2] at hx; simp at hx),
      if_neg (by rintro ⟨hx, hy⟩; rcases h3 with h3 | h3 <;> [exact hx h3; exact hy h3])]
    rfl
  have ht : PO.tokenSavers options = [] := by
    unfold PO.tokenSavers
    rw [if_neg h4, if_neg h5, if_neg h6, if_neg h7, if_neg h8]
    rfl
  unfold PO.optimizePrompt
  rw [hc, ht]
  simp

/-- Claim C10, witness at a concrete no-contribution input. -/
theorem C10_optimize_identity_witness :
    PO.optimizePrompt (str "Implement auth as hook") [] ⟨false, false, str "npm"⟩ =
      str "Implement auth as hook" :=
  C10_optimize_identity (str "Implement auth as hook") [] ⟨false, false, str "npm"⟩
    rfl rfl (Or.inr rfl) (by decide) (by decide) (by decide) (by decide) (by decide)

/-- Claim C2, counterexample: the Node-side builder has no fallback
table.  With `projectType` omitted for `init`, the fallback literal
`node` does not appear anywhere in the output and the raw placeholder is
left unresolved instead. -/
theorem C2_counterexample :
    (PB.buildPrompt (str "init") []).isSome = true ∧
    ¬ (str "node" <:+: (PB.buildPrompt (str "init") []).getD []) ∧
    phKey (str "projectType") <:+: (PB.buildPrompt (str "init") []).getD [] := by
  refine ⟨by decide, by decide, by decide⟩

/-- Claim C2, amended: the per-key fallback table exists only in the web
builder.  There, with every option omitted, each placeholder of the
chosen template is filled from the table (`projectType` to `node`,
`framework` to `vanilla`, `feature` to `component`, `pattern` to
`function`, `testType`/`module`/`library` to `unit`/`service`/`Jest`,
`projectName` to `project`, `issue`/`component`/`approach` to
`bug`/`component`/`debug`), except that the docs `docType` fallback `api`
is further rewritten to its dictionary phrase `API documentation`.  The
Node-side builder leaves an omitted key's placeholder unresolved. -/
theorem C2_web_fallbacks :
    WB.buildPromptW (str "init") [] =
      some (str "Create node project with vanilla" ++ PB.clarify) ∧
    WB.buildPromptW (str "feature") [] =
      some (str "Implement component as function" ++ PB.clarify) ∧
    WB.buildPromptW (str "architecture") [] =
      some (str "Design component using function pattern" ++ PB.clarify) ∧
    WB.buildPromptW (str "testing") [] =
      some (str "Write unit tests for service using Jest. Constraints: Using Jest." ++
        PB.clarify) ∧
    WB.buildPromptW (str "docs") [] =
      some (str "Generate API documentation documentation for project" ++ PB.clarify) ∧
    WB.buildPromptW (str "fix") [] =
      some (str "Fix bug in component using debug" ++ PB.clarify) := by
  refine ⟨?_, ?_, ?_, ?_, ?_, ?_⟩ <;> decide

/-- Claim C7, counterexample: with `framework = 'other'` and a custom
framework supplied, the Node-side `buildPrompt` call overwrites the
`framework` entry of the caller's options object; at the
`Object.prototype` tag `toString` the guard passes too, so the same
mutation lands on the caller's options right before the call throws. -/
theorem C7_counterexample :
    (PB.buildPromptS (str "init")
        [(str "framework", str "other"), (str "customFramework", str "Deno")]).2 ≠
      [(str "framework", str "other"), (str "customFramework", str "Deno")] ∧
    (PB.buildPromptS (str "toString")
        [(str "framework", str "other"), (str "customFramework", str "Deno")]).2 =
      [(str "framework", str "Deno"), (str "customFramework", str "Deno")] ∧
    (PB.buildPromptS (str "toString")
        [(str "framework", str "other"), (str "customFramework", str "Deno")]).1 =
      none := by
  refine ⟨by decide, by decide, by decide⟩

/-- Claim C7, amended: the Node-side `buildPrompt` is not free of side
effects on its options argument.  Its exact effect: whenever the type tag
passes the template guard (one of the six known tags, or a name inherited
from `Object.prototype`) and `framework = 'other'` with a truthy
`customFramework`, the `framework` entry is overwritten in place with the
custom value - even when the call then throws; in every other case
(including every rejected tag) the caller's options are left unchanged.
(The web builder operates on a merged copy and never writes the caller's
object.) -/
theorem C7_options_mutation (type : Str) (options : List (Str × Str)) :
    (PB.buildPromptS type options).2 =
      if (type ∈ PB.knownTypes ∨ type ∈ PB.protoKeys) ∧
          lookupA options (str "framework") = some (str "other") ∧
          lookupD options (str "customFramework") ≠ [] then
        updateA options (str "framework") (lookupD options (str "customFramework"))
      else options := by
  by_cases h1 : type ∈ PB.knownTypes
  · by_cases h2 : lookupA options (str "framework") = some (str "other") ∧
        lookupD options (str "customFramework") ≠ []
    · rw [if_pos ⟨Or.inl h1, h2.1, h2.2⟩]
      unfold PB.buildPromptS
      rw [if_pos h1]
      show PB.mutateOptions options = _
      unfold PB.mutateOptions
      rw [if_pos h2]
    · rw [if_neg fun hx => h2 ⟨hx.2.1, hx.2.2⟩]
      unfold PB.buildPromptS
      rw [if_pos h1]
      show PB.mutateOptions options = options
      unfold PB.mutateOptions
      rw [if_neg h2]
  · by_cases h1b : type ∈ PB.protoKeys
    · by_cases h2 : lookupA options (str "framework") = some (str "other") ∧
          lookupD options (str "customFramework") ≠ []
      · rw [if_pos ⟨Or.inr h1b, h2.1, h2.2⟩]
        unfold PB.buildPromptS
        rw [if_neg h1, if_pos h1b]
        show PB.mutateOptions options = _
        unfold PB.mutateOptions
        rw [if_pos h2]
      · rw [if_neg fun hx => h2 ⟨hx.2.1, hx.2.2⟩]
        unfold PB.buildPromptS
        rw [if_neg h1, if_pos h1b]
        show PB.mutateOptions options = options
        unfold PB.mutateOptions
        rw [if_neg h2]
    · rw [if_neg fun hx => hx.1.elim h1 h1b]
      unfold PB.buildPromptS
      rw [if_neg h1, if_neg h1b]

/-- Claim C5: for every known task type and every option set whose core
substitution completes (returns rather than throws), the output
decomposes as core, constraints segment, clarification suffix; the
constraints segment is present exactly when at least one clause was
collected; when clauses exist the output contains `Constraints:` and the
segment is never the empty artifact `. Constraints: .`; and when no
clause was collected (and option values are colon-free, so that no value
smuggles the token in) the output does not contain `Constraints:` at
all. -/
theorem C5_constraints_segment (type : Str) (opts : List (Str × Str))
    (ht : type ∈ PB.knownTypes) (core : Str)
    (hcore : PB.promptCore type (PB.mutateOptions opts) = some core) :
    PB.buildPrompt type opts =
      some ((core ++ PB.constraintsSeg type (PB.mutateOptions opts)) ++ PB.clarify) ∧
    (PB.constraintsSeg type (PB.mutateOptions opts) = [] ↔
      PB.promptConstraints type (PB.mutateOptions opts) = []) ∧
    (PB.promptConstraints type (PB.mutateOptions opts) ≠ [] →
      (str "Constraints:" <:+: (PB.buildPrompt type opts).getD []) ∧
      PB.constraintsSeg type (PB.mutateOptions opts) ≠ str ". Constraints: .") ∧
    ((∀ kv ∈ opts, (':' : Char) ∉ kv.2) →
      PB.promptConstraints type (PB.mutateOptions opts) = [] →
      ¬ (str "Constraints:" <:+: (PB.buildPrompt type opts).getD [])) := by
  have hb : PB.buildPrompt type opts =
      some ((core ++ PB.constraintsSeg type (PB.mutateOptions opts)) ++ PB.clarify) := by
    unfold PB.buildPrompt PB.buildPromptS
    rw [if_pos ht, hcore]
    rfl
  refine ⟨hb, ?_, ?_, ?_⟩
  · unfold PB.constraintsSeg
    split
    · rename_i hnil
      exact ⟨fun _ => hnil, fun _ => rfl⟩
    · rename_i hnil
      constructor
      · intro hx
        have : (str "." : Str) = ['.'] := rfl
        rw [List.append_assoc, this] at hx
        simp at hx
      · intro hx
        exact absurd hx hnil
  · intro hne
    have hseg : PB.constraintsSeg type (PB.mutateOptions opts) =
        str ". Constraints: " ++ joinSep (str ", ")
          (PB.promptConstraints type (PB.mutateOptions opts)) ++ str "." := by
      unfold PB.constraintsSeg
      rw [if_neg hne]
    constructor
    · have h1 : str "Constraints:" <:+: str ". Constraints: " := by decide
      have h2 : str ". Constraints: " <:+:
          PB.constraintsSeg type (PB.mutateOptions opts) := by
        rw [hseg]
        exact ⟨[], joinSep (str ", ") (PB.promptConstraints type (PB.mutateOptions opts)) ++
          str ".", by simp [List.append_assoc]⟩
      have h3 : PB.constraintsSeg type (PB.mutateOptions opts) <:+:
          (PB.buildPrompt type opts).getD [] := by
        rw [hb]
        simp only [Option.getD_some]
        exact ⟨core, PB.clarify, by simp [List.append_assoc]⟩
      exact (h1.trans h2).trans h3
    · rw [hseg]
      intro heq
      rcases hc : PB.promptConstraints type (PB.mutateOptions opts) with _ | ⟨c, tl⟩
      · exact hne hc
      · have hcne : c ≠ [] :=
          (promptConstraints_spec (by rw [hc]; exact List.mem_cons_self c tl)).1
        have hjoin : joinSep (str ", ")
            (PB.promptConstraints type (PB.mutateOptions opts)) ≠ [] := by
          rw [hc]
          exact joinSep_ne_nil hcne
        have : str ". Constraints: " ++ joinSep (str ", ")
            (PB.promptConstraints type (PB.mutateOptions opts)) ++ str "." =
            str ". Constraints: " ++ ([] : Str) ++ str "." := by
          rw [heq]
          rfl
        rw [List.append_assoc, List.append_assoc] at this
        have hj := List.append_cancel_left this
        have : (str "." : Str) = ['.'] := rfl
        rw [this] at hj
        have := congrArg List.length hj
        simp at this
        exact absurd this hjoin
  · intro hv hnil
    have hcol : (':' : Char) ∉ (PB.buildPrompt type opts).getD [] := by
      rw [hb]
      simp only [Option.getD_some]
      intro hm
      simp only [List.mem_append] at hm
      rcases hm with (hm | hm) | hm
      · exact promptCore_colon_nmem ht
          (@mutateOptions_vals (fun v => (':' : Char) ∉ v) opts hv (by decide)) hcore hm
      · unfold PB.constraintsSeg at hm
        rw [if_pos hnil] at hm
        simp at hm
      · revert hm
        decide
    exact not_infix_of_nmem (by decide : (':' : Char) ∈ str "Constraints:") hcol

/-- Claim C5, witness: the fix type with a priority option collects one
clause and emits the segment. -/
theorem C5_constraints_segment_witness :
    str "Constraints:" <:+:
      (PB.buildPrompt (str "fix") [(str "priority", str "high")]).getD [] :=
  ((C5_constraints_segment (str "fix") [(str "priority", str "high")]
    (by decide) PB.fixBase (by decide)).2.2.1 (by decide)).1

/-! ## Placeholder grammar for claim C1

`PH ks p` says the string `p` alternates brace-free text with the
placeholders of the keys `ks`, left to right; the substitution pass
removes exactly the placeholders whose keys the options cover. -/

section PlaceholderGrammar

end PlaceholderGrammar

